import Mathlib

/-!
Verification development for the rsql client driver.

The Go sources are shallowly embedded:
* byte buffers and wire streams are `List Nat` (each element a byte value
  0..255, `uint8(x)` casts written as `% 256`),
* `int64` values are `Int` (byte extraction of negative values uses
  floor division `Int.fdiv` and `Int.emod`, matching Go's arithmetic
  shift and two's-complement truncation),
* fallible readers return `Except` carrying the unread remainder of the
  stream.
-/

namespace Msgp

/-- Msgpack prefix constants from the encoder source. -/
def M_NIL : Nat := 0xc0
def M_FALSE : Nat := 0xc2
def M_TRUE : Nat := 0xc3
def M_UINT8 : Nat := 0xcc
def M_UINT16 : Nat := 0xcd
def M_UINT32 : Nat := 0xce
def M_UINT64 : Nat := 0xcf
def M_INT8 : Nat := 0xd0
def M_INT16 : Nat := 0xd1
def M_INT32 : Nat := 0xd2
def M_INT64 : Nat := 0xd3
def M_FLOAT32 : Nat := 0xca
def M_FLOAT64 : Nat := 0xcb
def M_FIXSTR_BASE : Nat := 0xa0
def M_STR8 : Nat := 0xd9
def M_STR16 : Nat := 0xda
def M_STR32 : Nat := 0xdb
def M_BIN8 : Nat := 0xc4
def M_BIN16 : Nat := 0xc5
def M_BIN32 : Nat := 0xc6
def M_FIXARRAY_BASE : Nat := 0x90
def M_ARRAY16 : Nat := 0xdc
def M_ARRAY32 : Nat := 0xdd
def M_FIXMAP_BASE : Nat := 0x80
def M_MAP16 : Nat := 0xde
def M_MAP32 : Nat := 0xdf
def M_NEGATIVE_FIXINT_BASE : Nat := 0xe0
def PREFIX_FIXSTR_MASK : Nat := 0xe0
def PREFIX_FIXARRAY_MASK : Nat := 0xf0
def PREFIX_FIXMAP_MASK : Nat := 0xf0

/-- `AppendUint64`: append the msgpack encoding of an unsigned 64-bit
value to `dest`, choosing the smallest representation (source
`AppendUint64`). -/
def AppendUint64 (dest : List Nat) (val : Nat) : List Nat :=
  if val ≤ 127 then
    dest ++ [val % 256]
  else if val ≤ 0xff then
    dest ++ [M_UINT8, val % 256]
  else if val ≤ 0xffff then
    dest ++ [M_UINT16, val / 2 ^ 8 % 256, val % 256]
  else if val ≤ 0xffffffff then
    dest ++ [M_UINT32, val / 2 ^ 24 % 256, val / 2 ^ 16 % 256, val / 2 ^ 8 % 256, val % 256]
  else
    dest ++ [M_UINT64, val / 2 ^ 56 % 256, val / 2 ^ 48 % 256, val / 2 ^ 40 % 256,
      val / 2 ^ 32 % 256, val / 2 ^ 24 % 256, val / 2 ^ 16 % 256, val / 2 ^ 8 % 256, val % 256]

/-- Low byte of an `int64` after an arithmetic right shift by `k` bits:
Go's `uint8(val >> k)`. -/
def ibyte (val : Int) (k : Nat) : Nat := ((val.fdiv (2 ^ k)) % 256).toNat

/-- `AppendInt64`: append the msgpack encoding of a signed 64-bit value
to `dest` (source `AppendInt64`; non-negative values skip the int8 case,
which is subsumed by the positive fixint case). -/
def AppendInt64 (dest : List Nat) (val : Int) : List Nat :=
  if 0 ≤ val then
    if val ≤ 127 then
      dest ++ [ibyte val 0]
    else if val ≤ 0x7fff then
      dest ++ [M_INT16, ibyte val 8, ibyte val 0]
    else if val ≤ 0x7fffffff then
      dest ++ [M_INT32, ibyte val 24, ibyte val 16, ibyte val 8, ibyte val 0]
    else
      dest ++ [M_INT64, ibyte val 56, ibyte val 48, ibyte val 40, ibyte val 32,
        ibyte val 24, ibyte val 16, ibyte val 8, ibyte val 0]
  else
    if -32 ≤ val then
      dest ++ [ibyte val 0]
    else if -0x80 ≤ val then
      dest ++ [M_INT8, ibyte val 0]
    else if -0x8000 ≤ val then
      dest ++ [M_INT16, ibyte val 8, ibyte val 0]
    else if -0x80000000 ≤ val then
      dest ++ [M_INT32, ibyte val 24, ibyte val 16, ibyte val 8, ibyte val 0]
    else
      dest ++ [M_INT64, ibyte val 56, ibyte val 48, ibyte val 40, ibyte val 32,
        ibyte val 24, ibyte val 16, ibyte val 8, ibyte val 0]

/-- `AppendStringHeader`: append a msgpack string header for payload
size `sz` (source `AppendStringHeader`). -/
def AppendStringHeader (dest : List Nat) (sz : Nat) : List Nat :=
  if sz ≤ 31 then
    dest ++ [M_FIXSTR_BASE ||| sz]
  else if sz ≤ 0xff then
    dest ++ [M_STR8, sz % 256]
  else if sz ≤ 0xffff then
    dest ++ [M_STR16, sz / 2 ^ 8 % 256, sz % 256]
  else
    dest ++ [M_STR32, sz / 2 ^ 24 % 256, sz / 2 ^ 16 % 256, sz / 2 ^ 8 % 256, sz % 256]

/-- `AppendStringFromBytes`: append a msgpack string whose payload is
the byte slice `s` (source `AppendStringFromBytes`). -/
def AppendStringFromBytes (dest : List Nat) (s : List Nat) : List Nat :=
  AppendStringHeader dest s.length ++ s

/-- Classification returned by `NextType` (source type `Type`). -/
inductive MType where
  | invalidType
  | binType
  | strType
  | nilType
  | boolType
  | uintType
  | intType
  | float32Type
  | float64Type
  | arrayType
  | mapType
  deriving DecidableEq, Repr

/-- The prefix-byte classification performed by `NextType`, in the exact
order of the source's tests (source `Reader.NextType`, after the peek). -/
def nextTypeByte (pfx : Nat) : MType :=
  if pfx ≤ 127 then .intType
  else if M_NEGATIVE_FIXINT_BASE ≤ pfx then .intType
  else if pfx &&& PREFIX_FIXSTR_MASK = M_FIXSTR_BASE then .strType
  else if pfx &&& PREFIX_FIXARRAY_MASK = M_FIXARRAY_BASE then .arrayType
  else if pfx &&& PREFIX_FIXMAP_MASK = M_FIXMAP_BASE then .mapType
  else if pfx = M_NIL then .nilType
  else if pfx = M_FALSE ∨ pfx = M_TRUE then .boolType
  else if pfx = M_BIN8 ∨ pfx = M_BIN16 ∨ pfx = M_BIN32 then .binType
  else if pfx = M_FLOAT32 then .float32Type
  else if pfx = M_FLOAT64 then .float64Type
  else if pfx = M_UINT8 ∨ pfx = M_UINT16 ∨ pfx = M_UINT32 ∨ pfx = M_UINT64 then .uintType
  else if pfx = M_INT8 ∨ pfx = M_INT16 ∨ pfx = M_INT32 ∨ pfx = M_INT64 then .intType
  else if pfx = M_STR8 ∨ pfx = M_STR16 ∨ pfx = M_STR32 then .strType
  else if pfx = M_ARRAY16 ∨ pfx = M_ARRAY32 then .arrayType
  else if pfx = M_MAP16 ∨ pfx = M_MAP32 then .mapType
  else .invalidType

/-- Reader errors (source: EOF from the transport, `error_bad_prefix`,
and the overflow errors of the narrowing readers). -/
inductive RdErr where
  | eof
  | badPfx (op : String) (b : Nat)
  | overflow (op : String)
  deriving DecidableEq, Repr

/-- `NextType` over a byte stream: peek one byte without consuming it
and classify it (source `Reader.NextType`). -/
def NextType (s : List Nat) : Except RdErr MType :=
  match s with
  | [] => .error .eof
  | pfx :: _ => .ok (nextTypeByte pfx)

/-- `ReadUint64` over a byte stream: consume a prefix and payload and
return the value and the unread remainder (source `Reader.ReadUint64`).
Only positive fixints and uint* prefixes are accepted. -/
def ReadUint64 (s : List Nat) : Except RdErr (Nat × List Nat) :=
  match s with
  | [] => .error .eof
  | pfx :: rest =>
    if pfx ≤ 127 then .ok (pfx, rest)
    else if pfx = M_UINT8 then
      match rest with
      | b0 :: r => .ok (b0, r)
      | _ => .error .eof
    else if pfx = M_UINT16 then
      match rest with
      | b0 :: b1 :: r => .ok (b0 * 2 ^ 8 + b1, r)
      | _ => .error .eof
    else if pfx = M_UINT32 then
      match rest with
      | b0 :: b1 :: b2 :: b3 :: r => .ok (b0 * 2 ^ 24 + b1 * 2 ^ 16 + b2 * 2 ^ 8 + b3, r)
      | _ => .error .eof
    else if pfx = M_UINT64 then
      match rest with
      | b0 :: b1 :: b2 :: b3 :: b4 :: b5 :: b6 :: b7 :: r =>
        .ok (b0 * 2 ^ 56 + b1 * 2 ^ 48 + b2 * 2 ^ 40 + b3 * 2 ^ 32 +
          b4 * 2 ^ 24 + b5 * 2 ^ 16 + b6 * 2 ^ 8 + b7, r)
      | _ => .error .eof
    else .error (.badPfx "read uint" pfx)

/-- `ReadNil` over a byte stream (source `Reader.ReadNil`). -/
def ReadNil (s : List Nat) : Except RdErr (List Nat) :=
  match s with
  | [] => .error .eof
  | pfx :: rest =>
    if pfx = M_NIL then .ok rest else .error (.badPfx "read nil" pfx)

/-- `ReadNBytes`: read exactly `n` bytes from the stream (source
`Reader.ReadNBytes`, built on `io.ReadFull`). -/
def ReadNBytes (n : Nat) (s : List Nat) : Except RdErr (List Nat × List Nat) :=
  if n ≤ s.length then .ok (s.take n, s.drop n) else .error .eof

/-- `ReadStringHeader` over a byte stream (source
`Reader.ReadStringHeader`). -/
def ReadStringHeader (s : List Nat) : Except RdErr (Nat × List Nat) :=
  match s with
  | [] => .error .eof
  | pfx :: rest =>
    if pfx &&& PREFIX_FIXSTR_MASK = M_FIXSTR_BASE then .ok (pfx &&& 0x1f, rest)
    else if pfx = M_STR8 then
      match rest with
      | b0 :: r => .ok (b0, r)
      | _ => .error .eof
    else if pfx = M_STR16 then
      match rest with
      | b0 :: b1 :: r => .ok (b0 * 2 ^ 8 + b1, r)
      | _ => .error .eof
    else if pfx = M_STR32 then
      match rest with
      | b0 :: b1 :: b2 :: b3 :: r => .ok (b0 * 2 ^ 24 + b1 * 2 ^ 16 + b2 * 2 ^ 8 + b3, r)
      | _ => .error .eof
    else .error (.badPfx "read string" pfx)

/-- `ReadStringAsBytes`: read a string header, then its payload bytes
(source `Reader.ReadStringAsBytes`). -/
def ReadStringAsBytes (s : List Nat) : Except RdErr (List Nat × List Nat) := do
  let (sz, s) ← ReadStringHeader s
  ReadNBytes sz s

end Msgp


namespace Rsqlib

/-- Lower bound of the accepted range for the first continuation byte
after leader `c` (Go `unicode/utf8` acceptRanges, used by
`utf8.RuneCount` which `Varchar.read_value` calls; the Go standard
library is embedded here because it is not part of this repository). -/
def utf8AcceptLo (c : Nat) : Nat :=
  if c = 0xe0 then 0xa0 else if c = 0xf0 then 0x90 else 0x80

/-- Upper bound of the accepted range for the first continuation byte
after leader `c` (Go `unicode/utf8` acceptRanges). -/
def utf8AcceptHi (c : Nat) : Nat :=
  if c = 0xed then 0x9f else if c = 0xf4 then 0x8f else 0xbf

/-- Number of bytes consumed for the character starting at byte `c`
followed by `rest`, per one iteration of Go `utf8.RuneCount`: ASCII and
invalid leaders consume 1; a truncated sequence consumes 1; a
continuation byte outside its accepted range reduces the size to 1. -/
def utf8CharSize (c : Nat) (rest : List Nat) : Nat :=
  if c < 0x80 then 1
  else if c < 0xc2 then 1
  else if c ≤ 0xdf then
    match rest with
    | b1 :: _ => if utf8AcceptLo c ≤ b1 ∧ b1 ≤ utf8AcceptHi c then 2 else 1
    | [] => 1
  else if c ≤ 0xef then
    match rest with
    | b1 :: b2 :: _ =>
      if utf8AcceptLo c ≤ b1 ∧ b1 ≤ utf8AcceptHi c then
        if 0x80 ≤ b2 ∧ b2 ≤ 0xbf then 3 else 1
      else 1
    | _ => 1
  else if c ≤ 0xf4 then
    match rest with
    | b1 :: b2 :: b3 :: _ =>
      if utf8AcceptLo c ≤ b1 ∧ b1 ≤ utf8AcceptHi c then
        if 0x80 ≤ b2 ∧ b2 ≤ 0xbf then
          if 0x80 ≤ b3 ∧ b3 ≤ 0xbf then 4 else 1
        else 1
      else 1
    | _ => 1
  else 1

/-- Fuel-indexed rune counter; with fuel at least the list length it
computes Go `utf8.RuneCount`. -/
def runeCountAux : Nat → List Nat → Nat
  | 0, _ => 0
  | _, [] => 0
  | fuel + 1, c :: rest => 1 + runeCountAux fuel (rest.drop (utf8CharSize c rest - 1))

/-- Go `utf8.RuneCount` over a byte list. -/
def runeCount (l : List Nat) : Nat := runeCountAux l.length l

/-- The `Varchar` field variant (source struct `Varchar`). -/
structure Varchar where
  Precision : Nat
  Fixlen : Bool
  Is_Null : Bool
  Val : List Nat
  deriving DecidableEq, Repr

/-- `Varchar.read_value` over a byte stream (source
`Varchar.read_value` in rsql_read_values.go): peek the next type; a nil
value makes the field null with an empty buffer; otherwise the msgpack
string payload becomes the value, and if `Fixlen` is set and the rune
count is below `Precision`, ASCII spaces are appended until the rune
count reaches `Precision` (the source appends zero bytes and then
overwrites them with blanks; the net effect is appending spaces).
The source discards the error of its `ReadNil` call (stale `err`
check), so the nil branch only consumes the peeked byte. -/
def Varchar.read_value (f : Varchar) (s : List Nat) :
    Except Msgp.RdErr (Varchar × List Nat) :=
  match Msgp.NextType s with
  | .error e => .error e
  | .ok t =>
    if t = .nilType then
      .ok ({ f with Is_Null := true, Val := [] }, s.drop 1)
    else
      match Msgp.ReadStringAsBytes s with
      | .error e => .error e
      | .ok (val, s2) =>
        let f2 : Varchar := { f with Is_Null := false, Val := val }
        if f2.Fixlen = true then
          let rc := runeCount f2.Val
          if rc < f2.Precision then
            .ok ({ f2 with Val := f2.Val ++ List.replicate (f2.Precision - rc) 32 }, s2)
          else
            .ok (f2, s2)
        else
          .ok (f2, s2)

end Rsqlib


namespace Rsqlib

/-- The session state touched by `Session.Close`: whether the keepalive
ticker has been stopped, whether the `ticker_done` channel has been
closed, and whether the socket has been closed. -/
structure SessionCloseState where
  tickerStopped : Bool
  tickerDoneClosed : Bool
  connClosed : Bool
  deriving DecidableEq, Repr

/-- Result of a `Close` call: either the updated state together with
whether `conn.Close()` returned an error, or a runtime panic. -/
inductive CloseResult where
  | ok (s : SessionCloseState) (connErr : Bool)
  | panicked
  deriving DecidableEq, Repr

/-- `Session.Close` (source `Session.Close`): stop the ticker
(`Ticker.Stop` is idempotent in Go), close the `ticker_done` channel
(Go's `close` panics when the channel is already closed), then close
the socket (`net.Conn.Close` on a closed connection returns an error
but does not panic). -/
def SessionClose (s : SessionCloseState) : CloseResult :=
  let s1 : SessionCloseState := { s with tickerStopped := true }
  if s1.tickerDoneClosed then
    .panicked
  else
    let s2 : SessionCloseState := { s1 with tickerDoneClosed := true }
    .ok { s2 with connClosed := true } s2.connClosed

/-- The state of a session freshly returned by `Connect`: ticker
running, done channel open, socket open. -/
def freshSession : SessionCloseState := ⟨false, false, false⟩

/-- A parsed msgpack token: the granularity at which the session-level
readers (`ReadString`, `ReadInt64`, `ReadMapHeader`) consume the wire.
Positive fixints are kept distinct from uint*-prefixed values because
the byte-level readers accept them in different families. -/
inductive Tok where
  | tnil
  | tbool (b : Bool)
  | tposfix (n : Nat)
  | tuint (n : Nat)
  | tnegfix (n : Int)
  | tint (n : Int)
  | tfloat32 (bits : Nat)
  | tfloat64 (bits : Nat)
  | tstr (bs : List Nat)
  | tbin (bs : List Nat)
  | tarrHdr (n : Nat)
  | tmapHdr (n : Nat)
  deriving DecidableEq, Repr

/-- Token-level reader errors. -/
inductive TokErr where
  | eof
  | badTok (op : String)
  deriving DecidableEq, Repr

/-- `Reader.ReadString` at token granularity. -/
def ReadStringT : List Tok → Except TokErr (List Nat × List Tok)
  | .tstr bs :: r => .ok (bs, r)
  | [] => .error .eof
  | _ :: _ => .error (.badTok "read string")

/-- `Reader.ReadInt64` at token granularity: accepts positive fixints,
negative fixints, and int*-prefixed values. -/
def ReadInt64T : List Tok → Except TokErr (Int × List Tok)
  | .tposfix n :: r => .ok ((n : Int), r)
  | .tnegfix n :: r => .ok (n, r)
  | .tint n :: r => .ok (n, r)
  | [] => .error .eof
  | _ :: _ => .error (.badTok "read int")

/-- `Reader.ReadMapHeader` at token granularity. -/
def ReadMapHeaderT : List Tok → Except TokErr (Nat × List Tok)
  | .tmapHdr n :: r => .ok (n, r)
  | [] => .error .eof
  | _ :: _ => .error (.badTok "read map")

/-- UTF-8 bytes of a string literal (all keys used here are ASCII). -/
def strB (s : String) : List Nat := s.data.map Char.toNat

/-- The structured error record (source struct `Error_info`); the
string fields are byte lists. -/
structure Error_info where
  src_file : List Nat := []
  src_line_no : Int := 0
  src_funcname : List Nat := []
  src_backtrace : List Nat := []
  category : List Nat := []
  message : List Nat := []
  severity : List Nat := []
  state : Int := 0
  text : List Nat := []
  line_no : Int := 0
  line_pos : Int := 0
  deriving DecidableEq, Repr

/-- One iteration body of the `Read_Error_info` loop after the key has
been read: the source's `switch` on the key. A key that matches no
case reads nothing — the corresponding value is left in the stream
(the switch has no default case). -/
def readErrorField (e : Error_info) (key : List Nat) (s : List Tok) :
    Except TokErr (Error_info × List Tok) :=
  if key = strB "src_file" then
    match ReadStringT s with
    | .error er => .error er
    | .ok (v, s1) => .ok ({ e with src_file := v }, s1)
  else if key = strB "src_line_no" then
    match ReadInt64T s with
    | .error er => .error er
    | .ok (v, s1) => .ok ({ e with src_line_no := v }, s1)
  else if key = strB "src_funcname" then
    match ReadStringT s with
    | .error er => .error er
    | .ok (v, s1) => .ok ({ e with src_funcname := v }, s1)
  else if key = strB "src_backtrace" then
    match ReadStringT s with
    | .error er => .error er
    | .ok (v, s1) => .ok ({ e with src_backtrace := v }, s1)
  else if key = strB "category" then
    match ReadStringT s with
    | .error er => .error er
    | .ok (v, s1) => .ok ({ e with category := v }, s1)
  else if key = strB "message" then
    match ReadStringT s with
    | .error er => .error er
    | .ok (v, s1) => .ok ({ e with message := v }, s1)
  else if key = strB "severity" then
    match ReadStringT s with
    | .error er => .error er
    | .ok (v, s1) => .ok ({ e with severity := v }, s1)
  else if key = strB "state" then
    match ReadInt64T s with
    | .error er => .error er
    | .ok (v, s1) => .ok ({ e with state := v }, s1)
  else if key = strB "text" then
    match ReadStringT s with
    | .error er => .error er
    | .ok (v, s1) => .ok ({ e with text := v }, s1)
  else if key = strB "line_no" then
    match ReadInt64T s with
    | .error er => .error er
    | .ok (v, s1) => .ok ({ e with line_no := v }, s1)
  else if key = strB "line_pos" then
    match ReadInt64T s with
    | .error er => .error er
    | .ok (v, s1) => .ok ({ e with line_pos := v }, s1)
  else
    .ok (e, s)

/-- The `Read_Error_info` loop over the declared number of map entries
(source loop `for i := 0; i < int(errobj_size); i++`). -/
def Read_Error_infoAux : Nat → Error_info → List Tok →
    Except TokErr (Error_info × List Tok)
  | 0, e, s => .ok (e, s)
  | n + 1, e, s =>
    match ReadStringT s with
    | .error er => .error er
    | .ok (key, s1) =>
      match readErrorField e key s1 with
      | .error er => .error er
      | .ok (e1, s2) => Read_Error_infoAux n e1 s2

/-- `Session.Read_Error_info` (source part_003): read a map header,
then alternately read keys and dispatch on them. -/
def Read_Error_info (s : List Tok) : Except TokErr (Error_info × List Tok) :=
  match ReadMapHeaderT s with
  | .error er => .error er
  | .ok (n, s1) => Read_Error_infoAux n {} s1

/-- A key-value pair of the error map whose key is one of the known
field names, with a value of the field's wire type. -/
inductive ErrKV where
  | srcFile (v : List Nat)
  | srcLineNo (v : Int)
  | srcFuncname (v : List Nat)
  | srcBacktrace (v : List Nat)
  | category (v : List Nat)
  | message (v : List Nat)
  | severity (v : List Nat)
  | state (v : Int)
  | text (v : List Nat)
  | lineNo (v : Int)
  | linePos (v : Int)
  deriving DecidableEq, Repr

/-- Token encoding of a known key-value pair. -/
def ErrKV.encode : ErrKV → List Tok
  | .srcFile v => [.tstr (strB "src_file"), .tstr v]
  | .srcLineNo v => [.tstr (strB "src_line_no"), .tint v]
  | .srcFuncname v => [.tstr (strB "src_funcname"), .tstr v]
  | .srcBacktrace v => [.tstr (strB "src_backtrace"), .tstr v]
  | .category v => [.tstr (strB "category"), .tstr v]
  | .message v => [.tstr (strB "message"), .tstr v]
  | .severity v => [.tstr (strB "severity"), .tstr v]
  | .state v => [.tstr (strB "state"), .tint v]
  | .text v => [.tstr (strB "text"), .tstr v]
  | .lineNo v => [.tstr (strB "line_no"), .tint v]
  | .linePos v => [.tstr (strB "line_pos"), .tint v]

/-- The field update a known key-value pair performs. -/
def ErrKV.applyTo (e : Error_info) : ErrKV → Error_info
  | .srcFile v => { e with src_file := v }
  | .srcLineNo v => { e with src_line_no := v }
  | .srcFuncname v => { e with src_funcname := v }
  | .srcBacktrace v => { e with src_backtrace := v }
  | .category v => { e with category := v }
  | .message v => { e with message := v }
  | .severity v => { e with severity := v }
  | .state v => { e with state := v }
  | .text v => { e with text := v }
  | .lineNo v => { e with line_no := v }
  | .linePos v => { e with line_pos := v }

end Rsqlib


namespace Drv

/-- A decoded msgpack value as delivered to the row readers, keeping
the prefix family that matters to the typed readers (positive fixints
are accepted by both the uint and the int readers; uint*- and
int*-prefixed values only by their own family). -/
inductive WireVal where
  | vnil
  | vbool (b : Bool)
  | vposfix (n : Nat)
  | vuint (n : Nat)
  | vnegfix (n : Int)
  | vint (n : Int)
  | vfloat32 (bits : Nat)
  | vfloat64 (bits : Nat)
  | vstr (bs : List Nat)
  | vbin (bs : List Nat)
  | varr (elems : List WireVal)

/-- A failure while building or filling a row: either a reader error
carrying the operation name, or a Go panic (failed `assert`). -/
inductive DrvFail where
  | rd (op : String)
  | panic
  deriving DecidableEq, Repr

/-- `NextType` classification of a decoded value (matching the
byte-level `nextTypeByte`: positive fixints classify as Int). -/
def wNextType : WireVal → Msgp.MType
  | .vnil => .nilType
  | .vbool _ => .boolType
  | .vposfix _ => .intType
  | .vuint _ => .uintType
  | .vnegfix _ => .intType
  | .vint _ => .intType
  | .vfloat32 _ => .float32Type
  | .vfloat64 _ => .float64Type
  | .vstr _ => .strType
  | .vbin _ => .binType
  | .varr _ => .arrayType

/-- `ReadUint64` on a decoded value. -/
def wReadUint64 : WireVal → Except DrvFail Nat
  | .vposfix n => .ok n
  | .vuint n => .ok n
  | _ => .error (.rd "read uint")

/-- `ReadUint8`: delegates to the 64-bit reader and fails on overflow. -/
def wReadUint8 (w : WireVal) : Except DrvFail Nat :=
  match wReadUint64 w with
  | .error e => .error e
  | .ok n => if n > 255 then .error (.rd "ReadUint8 overflow") else .ok n

/-- `ReadUint16`: delegates to the 64-bit reader and fails on overflow. -/
def wReadUint16 (w : WireVal) : Except DrvFail Nat :=
  match wReadUint64 w with
  | .error e => .error e
  | .ok n => if n > 65535 then .error (.rd "ReadUint16 overflow") else .ok n

/-- `ReadUint32`: delegates to the 64-bit reader and fails on overflow. -/
def wReadUint32 (w : WireVal) : Except DrvFail Nat :=
  match wReadUint64 w with
  | .error e => .error e
  | .ok n => if n > 4294967295 then .error (.rd "ReadUint32 overflow") else .ok n

/-- `ReadInt64` on a decoded value. -/
def wReadInt64 : WireVal → Except DrvFail Int
  | .vposfix n => .ok (n : Int)
  | .vnegfix n => .ok n
  | .vint n => .ok n
  | _ => .error (.rd "read int")

/-- `ReadInt16`: delegates to the 64-bit reader and fails on overflow. -/
def wReadInt16 (w : WireVal) : Except DrvFail Int :=
  match wReadInt64 w with
  | .error e => .error e
  | .ok n => if n < -32768 ∨ n > 32767 then .error (.rd "ReadInt16 overflow") else .ok n

/-- `ReadInt32`: delegates to the 64-bit reader and fails on overflow. -/
def wReadInt32 (w : WireVal) : Except DrvFail Int :=
  match wReadInt64 w with
  | .error e => .error e
  | .ok n => if n < -2147483648 ∨ n > 2147483647 then .error (.rd "ReadInt32 overflow")
    else .ok n

/-- `ReadBool` on a decoded value. -/
def wReadBool : WireVal → Except DrvFail Bool
  | .vbool b => .ok b
  | _ => .error (.rd "read bool")

/-- `ReadFloat64` on a decoded value (the IEEE-754 bit pattern is kept
as such; the driver never computes with it). -/
def wReadFloat64 : WireVal → Except DrvFail Nat
  | .vfloat64 bits => .ok bits
  | _ => .error (.rd "read float64")

/-- `ReadStringAsBytes` on a decoded value. -/
def wReadStrBytes : WireVal → Except DrvFail (List Nat)
  | .vstr bs => .ok bs
  | _ => .error (.rd "read string")

/-- `ReadBytes` on a decoded value. -/
def wReadBin : WireVal → Except DrvFail (List Nat)
  | .vbin bs => .ok bs
  | _ => .error (.rd "read bin")

/-- Datatype tags (source `Dtype_t` constants). -/
def DTYPE_VOID : Nat := 1
def DTYPE_BOOLEAN : Nat := 2
def DTYPE_VARBINARY : Nat := 4
def DTYPE_VARCHAR : Nat := 6
def DTYPE_BIT : Nat := 9
def DTYPE_TINYINT : Nat := 10
def DTYPE_SMALLINT : Nat := 11
def DTYPE_INT : Nat := 12
def DTYPE_BIGINT : Nat := 13
def DTYPE_MONEY : Nat := 15
def DTYPE_NUMERIC : Nat := 16
def DTYPE_FLOAT : Nat := 17
def DTYPE_DATE : Nat := 19
def DTYPE_TIME : Nat := 20
def DTYPE_DATETIME : Nat := 21

/-- Temporal constants (source). -/
def SECONDS_PER_DAY : Int := 86400
def UNIX_SEC_LOWEST : Int := -62135596800
def UNIX_SEC_1900_01_01 : Int := -2208988800

/-- A typed row field (source `IField` variants in rsql_read_values.go).
Temporal values are the Unix second and nanosecond of the stored
`time.Time` instant (always UTC in the source); float values are kept
as their IEEE-754 bit pattern. -/
inductive Field where
  | void (isNull : Bool)
  | boolean (isNull : Bool) (val : Bool)
  | varbinary (precision : Nat) (isNull : Bool) (val : List Nat)
  | varchar (precision : Nat) (fixlen : Bool) (isNull : Bool) (val : List Nat)
  | bit (isNull : Bool) (val : Nat)
  | tinyint (isNull : Bool) (val : Nat)
  | smallint (isNull : Bool) (val : Int)
  | int (isNull : Bool) (val : Int)
  | bigint (isNull : Bool) (val : Int)
  | money (precision scale : Nat) (isNull : Bool) (val : List Nat)
  | numeric (precision scale : Nat) (isNull : Bool) (val : List Nat)
  | float (isNull : Bool) (bits : Nat)
  | date (isNull : Bool) (sec : Int)
  | time (isNull : Bool) (sec : Int) (ns : Nat)
  | datetime (isNull : Bool) (sec : Int) (ns : Nat)
  deriving DecidableEq, Repr

/-- `IsNull` (source per-variant methods). -/
def Field.IsNull : Field → Bool
  | .void n => n
  | .boolean n _ => n
  | .varbinary _ n _ => n
  | .varchar _ _ n _ => n
  | .bit n _ => n
  | .tinyint n _ => n
  | .smallint n _ => n
  | .int n _ => n
  | .bigint n _ => n
  | .money _ _ n _ => n
  | .numeric _ _ n _ => n
  | .float n _ => n
  | .date n _ => n
  | .time n _ _ => n
  | .datetime n _ _ => n

/-- `time.Unix(sec, ns)` normalization of an out-of-range nanosecond
argument into whole seconds. -/
def timeUnix (sec : Int) (ns : Nat) : Int × Nat :=
  (sec + (ns / 1000000000 : Nat), ns % 1000000000)

/-- `read_value` of each field variant on a decoded wire value (source
rsql_read_values.go): a nil value makes the field null and resets its
buffer; otherwise the value of the natural wire type is stored, with
the per-type handling of the source (Varchar space padding, Bit
`assert val <= 1`, temporal reconstruction from epoch deltas). -/
def Field.read_value (f : Field) (w : WireVal) : Except DrvFail Field :=
  match f with
  | .void _ =>
    if wNextType w = .nilType then .ok (.void true) else .error .panic
  | .boolean _ _ =>
    if wNextType w = .nilType then .ok (.boolean true false)
    else
      match wReadBool w with
      | .error e => .error e
      | .ok b => .ok (.boolean false b)
  | .varbinary p _ _ =>
    if wNextType w = .nilType then .ok (.varbinary p true [])
    else
      match wReadBin w with
      | .error e => .error e
      | .ok bs => .ok (.varbinary p false bs)
  | .varchar p fx _ _ =>
    if wNextType w = .nilType then .ok (.varchar p fx true [])
    else
      match wReadStrBytes w with
      | .error e => .error e
      | .ok bs =>
        if fx = true then
          let rc := Rsqlib.runeCount bs
          if rc < p then
            .ok (.varchar p fx false (bs ++ List.replicate (p - rc) 32))
          else
            .ok (.varchar p fx false bs)
        else
          .ok (.varchar p fx false bs)
  | .bit _ _ =>
    if wNextType w = .nilType then .ok (.bit true 0)
    else
      match wReadUint8 w with
      | .error e => .error e
      | .ok v => if v ≤ 1 then .ok (.bit false v) else .error .panic
  | .tinyint _ _ =>
    if wNextType w = .nilType then .ok (.tinyint true 0)
    else
      match wReadUint8 w with
      | .error e => .error e
      | .ok v => .ok (.tinyint false v)
  | .smallint _ _ =>
    if wNextType w = .nilType then .ok (.smallint true 0)
    else
      match wReadInt16 w with
      | .error e => .error e
      | .ok v => .ok (.smallint false v)
  | .int _ _ =>
    if wNextType w = .nilType then .ok (.int true 0)
    else
      match wReadInt32 w with
      | .error e => .error e
      | .ok v => .ok (.int false v)
  | .bigint _ _ =>
    if wNextType w = .nilType then .ok (.bigint true 0)
    else
      match wReadInt64 w with
      | .error e => .error e
      | .ok v => .ok (.bigint false v)
  | .money p sc _ _ =>
    if wNextType w = .nilType then .ok (.money p sc true [])
    else
      match wReadStrBytes w with
      | .error e => .error e
      | .ok bs => .ok (.money p sc false bs)
  | .numeric p sc _ _ =>
    if wNextType w = .nilType then .ok (.numeric p sc true [])
    else
      match wReadStrBytes w with
      | .error e => .error e
      | .ok bs => .ok (.numeric p sc false bs)
  | .float _ _ =>
    if wNextType w = .nilType then .ok (.float true 0)
    else
      match wReadFloat64 w with
      | .error e => .error e
      | .ok bits => .ok (.float false bits)
  | .date _ _ =>
    if wNextType w = .nilType then .ok (.date true 0)
    else
      match wReadUint32 w with
      | .error e => .error e
      | .ok days => .ok (.date false (UNIX_SEC_LOWEST + (days : Int) * SECONDS_PER_DAY))
  | .time _ _ _ =>
    if wNextType w = .nilType then .ok (.time true 0 0)
    else
      match w with
      | .varr elems =>
        if elems.length = 2 then
          match elems with
          | [e1, e2] =>
            match wReadUint32 e1 with
            | .error e => .error e
            | .ok ds =>
              match wReadUint32 e2 with
              | .error e => .error e
              | .ok dns =>
                let t := timeUnix (UNIX_SEC_1900_01_01 + (ds : Int)) dns
                .ok (.time false t.1 t.2)
          | _ => .error .panic
        else .error .panic
      | _ => .error (.rd "read array")
  | .datetime _ _ _ =>
    if wNextType w = .nilType then .ok (.datetime true 0 0)
    else
      match w with
      | .varr elems =>
        if elems.length = 3 then
          match elems with
          | [e1, e2, e3] =>
            match wReadUint32 e1 with
            | .error e => .error e
            | .ok days =>
              match wReadUint32 e2 with
              | .error e => .error e
              | .ok ds =>
                match wReadUint32 e3 with
                | .error e => .error e
                | .ok dns =>
                  let t := timeUnix
                    (UNIX_SEC_LOWEST + (days : Int) * SECONDS_PER_DAY + (ds : Int)) dns
                  .ok (.datetime false t.1 t.2)
          | _ => .error .panic
        else .error .panic
      | _ => .error (.rd "read array")

/-- `new_field` (source rsql_read_values.go): build an all-null field
from one column descriptor, an array whose first element is the
datatype tag; the `assert` on the array size panics on a wrong arity;
an unknown tag is an error. -/
def new_field (desc : WireVal) : Except DrvFail Field :=
  match desc with
  | .varr elems =>
    match elems with
    | [] => .error (.rd "read uint")
    | u :: params =>
      match wReadUint8 u with
      | .error e => .error e
      | .ok dt =>
        let sz := elems.length
        if dt = DTYPE_VOID then
          if sz = 1 then .ok (.void true) else .error .panic
        else if dt = DTYPE_BOOLEAN then
          if sz = 1 then .ok (.boolean true false) else .error .panic
        else if dt = DTYPE_VARBINARY then
          if sz = 2 then
            match params with
            | [p1] =>
              match wReadUint16 p1 with
              | .error e => .error e
              | .ok p => .ok (.varbinary p true [])
            | _ => .error .panic
          else .error .panic
        else if dt = DTYPE_VARCHAR then
          if sz = 3 then
            match params with
            | [p1, p2] =>
              match wReadUint16 p1 with
              | .error e => .error e
              | .ok p =>
                match wReadBool p2 with
                | .error e => .error e
                | .ok fx => .ok (.varchar p fx true [])
            | _ => .error .panic
          else .error .panic
        else if dt = DTYPE_BIT then
          if sz = 1 then .ok (.bit true 0) else .error .panic
        else if dt = DTYPE_TINYINT then
          if sz = 1 then .ok (.tinyint true 0) else .error .panic
        else if dt = DTYPE_SMALLINT then
          if sz = 1 then .ok (.smallint true 0) else .error .panic
        else if dt = DTYPE_INT then
          if sz = 1 then .ok (.int true 0) else .error .panic
        else if dt = DTYPE_BIGINT then
          if sz = 1 then .ok (.bigint true 0) else .error .panic
        else if dt = DTYPE_MONEY then
          if sz = 3 then
            match params with
            | [p1, p2] =>
              match wReadUint16 p1 with
              | .error e => .error e
              | .ok p =>
                match wReadUint16 p2 with
                | .error e => .error e
                | .ok sc => .ok (.money p sc true [])
            | _ => .error .panic
          else .error .panic
        else if dt = DTYPE_NUMERIC then
          if sz = 3 then
            match params with
            | [p1, p2] =>
              match wReadUint16 p1 with
              | .error e => .error e
              | .ok p =>
                match wReadUint16 p2 with
                | .error e => .error e
                | .ok sc => .ok (.numeric p sc true [])
            | _ => .error .panic
          else .error .panic
        else if dt = DTYPE_FLOAT then
          if sz = 1 then .ok (.float true 0) else .error .panic
        else if dt = DTYPE_DATE then
          if sz = 1 then .ok (.date true 0) else .error .panic
        else if dt = DTYPE_TIME then
          if sz = 1 then .ok (.time true 0 0) else .error .panic
        else if dt = DTYPE_DATETIME then
          if sz = 1 then .ok (.datetime true 0 0) else .error .panic
        else
          .error (.rd "Unknown datatype received")
  | _ => .error (.rd "read array")

/-- `Session.Create_row`: build the typed row buffer from the column
descriptors. -/
def Create_row : List WireVal → Except DrvFail (List Field)
  | [] => .ok []
  | d :: ds =>
    match new_field d with
    | .error e => .error e
    | .ok f =>
      match Create_row ds with
      | .error e => .error e
      | .ok fs => .ok (f :: fs)

/-- The loop body of `Session.Fill_row_with_values`. -/
def fillRowAux : List Field → List WireVal → Except DrvFail (List Field)
  | [], [] => .ok []
  | f :: fs, w :: ws =>
    match f.read_value w with
    | .error e => .error e
    | .ok f2 =>
      match fillRowAux fs ws with
      | .error e => .error e
      | .ok fs2 => .ok (f2 :: fs2)
  | _, _ => .error .panic

/-- `Session.Fill_row_with_values`: assert the wire row arity matches
the row buffer (a mismatch is a Go panic), then decode each field in
place. -/
def Fill_row_with_values (row : List Field) (vals : List WireVal) :
    Except DrvFail (List Field) :=
  if row.length = vals.length then fillRowAux row vals else .error .panic

end Drv


namespace Drv

/-- Batch status (source type `status`). -/
inductive Status where
  | batchSent
  | recordLayoutAvailable
  | recordAvailable
  | recordEnd
  | batchEnd
  deriving DecidableEq, Repr

/-- An error recorded on a batch (source `b.err`): a transport failure,
a reader failure, the record-count protocol violation, or a structured
batch error received from the server (source `newBatchError` copies the
`Error_info` fields into `BatchError` one to one). -/
inductive DrvErr where
  | transport
  | rd (op : String)
  | recordcountMismatch (got expected : Int)
  | batchError (e : Rsqlib.Error_info)
  deriving DecidableEq, Repr

/-- A response message, at the granularity delivered by the session
read primitives: the tag plus its decoded payload. -/
inductive Msg where
  | recordLayout (names : List String) (descs : List WireVal)
  | record (vals : List WireVal)
  | recordFinished (n : Int)
  | executionFinished (n : Int)
  | print (descs : List WireVal) (vals : List WireVal)
  | message (s : String)
  | error (e : Rsqlib.Error_info)
  | batchEnd (rc : Int)

/-- The fields of `Batch` that the state machine manipulates, plus the
owning connection's dirty flag. `none` models a nil slice or map. -/
structure Batch where
  status : Status
  recordsetCount : Nat
  colnameList : Option (List String)
  colnameMap : Option (List (String × Nat))
  record : Option (List Field)
  recordCount : Int
  execRecordCount : Int
  err : Option DrvErr
  rc : Int
  connDirty : Bool
  deriving DecidableEq, Repr

/-- Go map lookup on the association-list model of `map[string]int`. -/
def mLookup : List (String × Nat) → String → Option Nat
  | [], _ => none
  | (k, v) :: rest, key => if k = key then some v else mLookup rest key

/-- Go map insert (replacing an existing binding). -/
def mInsert : List (String × Nat) → String → Nat → List (String × Nat)
  | [], key, v => [(key, v)]
  | (k, w) :: rest, key, v =>
    if k = key then (k, v) :: rest else (k, w) :: mInsert rest key v

/-- Go map delete. -/
def mErase : List (String × Nat) → String → List (String × Nat)
  | [], _ => []
  | (k, w) :: rest, key => if k = key then rest else (k, w) :: mErase rest key

/-- The column-name-map construction loop of `Batch.step`'s
RecordLayout case (source driver.go): empty names are skipped; when the
name is already present the entry is overwritten with the new index,
otherwise the (absent) entry is deleted. -/
def buildColnameMapAux : List (String × Nat) → List (Nat × String) → List (String × Nat)
  | m, [] => m
  | m, (i, name) :: rest =>
    if name = "" then buildColnameMapAux m rest
    else if (mLookup m name).isSome then buildColnameMapAux (mInsert m name i) rest
    else buildColnameMapAux (mErase m name) rest

/-- Build the column-name-to-index map from the received name list. -/
def buildColnameMap (names : List String) : List (String × Nat) :=
  buildColnameMapAux [] names.enum

/-- Stop condition of the driver loop (source `stepOption`). -/
inductive StepOption where
  | nextRecord
  | finalize
  deriving DecidableEq, Repr

/-- Result of `Batch.step`: the updated batch, the returned boolean,
and the unread remainder of the stream, or a Go panic. -/
inductive StepRes where
  | out (b : Batch) (avail : Bool) (rest : List Msg)
  | panicked

/-- The response loop of `Batch.step` (source driver.go): one iteration
per message, in source order. Reading past the end of the stream is
the transport error of the underlying read. -/
def stepLoop (opt : StepOption) : Batch → List Msg → StepRes
  | b, [] => .out { b with err := some .transport } false []
  | b, msg :: rest =>
    match msg with
    | .recordLayout names descs =>
      let b1 := { b with colnameList := some names,
                         colnameMap := some (buildColnameMap names) }
      match Create_row descs with
      | .error .panic => .panicked
      | .error (.rd op) => .out { b1 with err := some (.rd op) } false rest
      | .ok record =>
        let b2 := { b1 with record := some record, recordCount := 0,
                            recordsetCount := b1.recordsetCount + 1,
                            status := .recordLayoutAvailable }
        if opt = .nextRecord then .out b2 false rest else stepLoop opt b2 rest
    | .record vals =>
      match Fill_row_with_values (b.record.getD []) vals with
      | .error .panic => .panicked
      | .error (.rd op) => .out { b with err := some (.rd op) } false rest
      | .ok record2 =>
        let b2 := { b with record := some record2, recordCount := b.recordCount + 1,
                           status := .recordAvailable }
        if opt = .nextRecord then .out b2 true rest else stepLoop opt b2 rest
    | .recordFinished n =>
      if n ≠ b.recordCount then
        .out { b with err := some (.recordcountMismatch n b.recordCount) } false rest
      else
        stepLoop opt { b with colnameList := none, colnameMap := none, record := none,
                              recordCount := n, status := .recordEnd } rest
    | .executionFinished n =>
      stepLoop opt { b with execRecordCount := n } rest
    | .print descs vals =>
      match Create_row descs with
      | .error .panic => .panicked
      | .error (.rd op) => .out { b with err := some (.rd op) } false rest
      | .ok row =>
        match Fill_row_with_values row vals with
        | .error .panic => .panicked
        | .error (.rd op) => .out { b with err := some (.rd op) } false rest
        | .ok _ => stepLoop opt b rest
    | .message _ => stepLoop opt b rest
    | .error e => stepLoop opt { b with err := some (.batchError e) } rest
    | .batchEnd rc =>
      .out { b with rc := rc, status := .batchEnd, connDirty := false } false rest

/-- `Batch.step`: a recorded error short-circuits before any read. -/
def step (opt : StepOption) (b : Batch) (msgs : List Msg) : StepRes :=
  if b.err.isSome then .out b false msgs else stepLoop opt b msgs

/-- `Batch.Next`. -/
def Next (b : Batch) (msgs : List Msg) : StepRes :=
  step .nextRecord b msgs

/-- Result of `Batch.Finalize`: the batch, the returned error, and the
unread remainder, or a Go panic. -/
inductive FinRes where
  | out (b : Batch) (e : Option DrvErr) (rest : List Msg)
  | panicked

/-- `Batch.Finalize` (source driver.go): return the stored error if
any; otherwise drive the loop to batch end and return the resulting
error. -/
def Finalize (b : Batch) (msgs : List Msg) : FinRes :=
  if b.err.isSome then .out b b.err msgs
  else if b.status ≠ Status.batchEnd then
    match step .finalize b msgs with
    | .panicked => .panicked
    | .out b2 _ rest => .out b2 b2.err rest
  else .out b b.err msgs

end Drv


namespace Drv

/-- Environment-dependent formatting used by the value accessors: the
local-zone reinterpretation of `LocalizeTime` (which depends on
`time.Local`), and the string formatting of float and temporal values
(`strconv.FormatFloat` and `time.Time.Format`). They are parameters of
the embedding; the driver only pipes their results through. -/
structure Fmt where
  localize : Int × Nat → Int × Nat
  floatStr : Nat → List Nat
  dateStr : Int → List Nat
  timeStr : Int × Nat → List Nat
  datetimeStr : Int × Nat → List Nat

/-- A concrete `Fmt` instance used to evaluate the embedding on
concrete inputs. -/
def idFmt : Fmt := ⟨fun t => t, fun _ => [], fun _ => [], fun _ => [], fun _ => []⟩

/-- `strconv.ParseBool` on the byte content of a string. -/
def parseBool (bs : List Nat) : Option Bool :=
  if bs = Rsqlib.strB "1" ∨ bs = Rsqlib.strB "t" ∨ bs = Rsqlib.strB "T" ∨
      bs = Rsqlib.strB "TRUE" ∨ bs = Rsqlib.strB "true" ∨ bs = Rsqlib.strB "True" then
    some true
  else if bs = Rsqlib.strB "0" ∨ bs = Rsqlib.strB "f" ∨ bs = Rsqlib.strB "F" ∨
      bs = Rsqlib.strB "FALSE" ∨ bs = Rsqlib.strB "false" ∨ bs = Rsqlib.strB "False" then
    some false
  else
    none

/-- Decimal digits of an integer, as ASCII bytes (Go
`strconv.FormatInt(v, 10)`). -/
def intDec (v : Int) : List Nat := Rsqlib.strB (toString v)

/-- One lowercase hex digit. -/
def hexDigit (d : Nat) : Nat := if d < 10 then 48 + d else 87 + (d - 10)

/-- Go `fmt.Sprintf("0x%x", bytes)`: two lowercase hex digits per
byte, prefixed with 0x. -/
def hexBytes (bs : List Nat) : List Nat :=
  Rsqlib.strB "0x" ++ (bs.map (fun b => [hexDigit (b / 16 % 16), hexDigit (b % 16)])).flatten

/-- `String()` of a field (source per-variant methods), as bytes. -/
def Field.stringBytes (fm : Fmt) : Field → List Nat
  | .void _ => Rsqlib.strB "<NULL>"
  | .boolean n v =>
    if n then Rsqlib.strB "<NULL>"
    else if v then Rsqlib.strB "true" else Rsqlib.strB "false"
  | .varbinary _ n v => if n then Rsqlib.strB "<NULL>" else hexBytes v
  | .varchar _ _ n v => if n then Rsqlib.strB "<NULL>" else v
  | .bit n v =>
    if n then Rsqlib.strB "<NULL>"
    else if v = 0 then Rsqlib.strB "0" else Rsqlib.strB "1"
  | .tinyint n v => if n then Rsqlib.strB "<NULL>" else intDec (v : Int)
  | .smallint n v => if n then Rsqlib.strB "<NULL>" else intDec v
  | .int n v => if n then Rsqlib.strB "<NULL>" else intDec v
  | .bigint n v => if n then Rsqlib.strB "<NULL>" else intDec v
  | .money _ _ n v => if n then Rsqlib.strB "<NULL>" else v
  | .numeric _ _ n v => if n then Rsqlib.strB "<NULL>" else v
  | .float n bits => if n then Rsqlib.strB "<NULL>" else fm.floatStr bits
  | .date n sec => if n then Rsqlib.strB "<NULL>" else fm.dateStr sec
  | .time n sec ns => if n then Rsqlib.strB "<NULL>" else fm.timeStr (sec, ns)
  | .datetime n sec ns => if n then Rsqlib.strB "<NULL>" else fm.datetimeStr (sec, ns)

/-- The IEEE-754 bit patterns equal to floating zero (`0.0` and
`-0.0`), used by `ColBool`'s `Val != 0` test on a Float column. -/
def floatBitsZero (bits : Nat) : Bool :=
  bits == 0 || bits == 0x8000000000000000

/-- `time.Time{}`, the zero instant 0001-01-01 UTC. -/
def zeroTime : Int × Nat := (-62135596800, 0)

/-- `Batch.ColBool` on the row (source getresult.go). An out-of-range
index or an incompatible column type is a fatal panic, modelled as
`Except.error`. Returns (value, isnull). -/
def colBool (row : List Field) (i : Nat) : Except Unit (Bool × Bool) :=
  match row[i]? with
  | none => .error ()
  | some f =>
    if f.IsNull then .ok (false, true)
    else
      match f with
      | .varchar _ _ _ v =>
        match parseBool v with
        | none => .ok (false, false)
        | some r => .ok (r, false)
      | .bit _ v => .ok (v != 0, false)
      | .tinyint _ v => .ok (v != 0, false)
      | .smallint _ v => .ok (v != 0, false)
      | .int _ v => .ok (v != 0, false)
      | .bigint _ v => .ok (v != 0, false)
      | .float _ bits => .ok (!floatBitsZero bits, false)
      | _ => .error ()

/-- `Batch.ColBinary`. -/
def colBinary (row : List Field) (i : Nat) : Except Unit (List Nat × Bool) :=
  match row[i]? with
  | none => .error ()
  | some f =>
    if f.IsNull then .ok ([], true)
    else
      match f with
      | .varbinary _ _ v => .ok (v, false)
      | _ => .error ()

/-- `Batch.ColString` (byte content; a NULL column yields the empty
string). -/
def colString (fm : Fmt) (row : List Field) (i : Nat) : Except Unit (List Nat × Bool) :=
  match row[i]? with
  | none => .error ()
  | some f =>
    if f.IsNull then .ok ([], true)
    else
      match f with
      | .varchar _ _ _ v => .ok (v, false)
      | .money _ _ _ v => .ok (v, false)
      | .numeric _ _ _ v => .ok (v, false)
      | _ => .ok (f.stringBytes fm, false)

/-- `Batch.ColInt64`. -/
def colInt64 (row : List Field) (i : Nat) : Except Unit (Int × Bool) :=
  match row[i]? with
  | none => .error ()
  | some f =>
    if f.IsNull then .ok (0, true)
    else
      match f with
      | .bit _ v => .ok ((v : Int), false)
      | .tinyint _ v => .ok ((v : Int), false)
      | .smallint _ v => .ok (v, false)
      | .int _ v => .ok (v, false)
      | .bigint _ v => .ok (v, false)
      | _ => .error ()

/-- `Batch.ColFloat64` (bit pattern; NULL yields the bits of 0.0). -/
def colFloat64 (row : List Field) (i : Nat) : Except Unit (Nat × Bool) :=
  match row[i]? with
  | none => .error ()
  | some f =>
    if f.IsNull then .ok (0, true)
    else
      match f with
      | .float _ bits => .ok (bits, false)
      | _ => .error ()

/-- `Batch.ColDatetimeUTC`. -/
def colDatetimeUTC (row : List Field) (i : Nat) : Except Unit ((Int × Nat) × Bool) :=
  match row[i]? with
  | none => .error ()
  | some f =>
    if f.IsNull then .ok (zeroTime, true)
    else
      match f with
      | .date _ sec => .ok ((sec, 0), false)
      | .time _ sec ns => .ok ((sec, ns), false)
      | .datetime _ sec ns => .ok ((sec, ns), false)
      | _ => .error ()

/-- `Batch.ColDatetime`: TIME stays UTC, DATE and DATETIME are
localized. -/
def colDatetime (fm : Fmt) (row : List Field) (i : Nat) :
    Except Unit ((Int × Nat) × Bool) :=
  match row[i]? with
  | none => .error ()
  | some f =>
    if f.IsNull then .ok (zeroTime, true)
    else
      match f with
      | .time _ sec ns => .ok ((sec, ns), false)
      | _ =>
        match colDatetimeUTC row i with
        | .error () => .error ()
        | .ok (t, _) => .ok (fm.localize t, false)

/-- A scan destination: the kind of the pointer passed to `Scan`, with
its current pointee value (source: the `dest ...interface{}` switch). -/
inductive Dest where
  | dBool (v : Bool)
  | dBytes (v : List Nat)
  | dString (v : List Nat)
  | dInt8 (v : Int)
  | dInt16 (v : Int)
  | dInt32 (v : Int)
  | dInt64 (v : Int)
  | dInt (v : Int)
  | dUint8 (v : Nat)
  | dUint16 (v : Nat)
  | dUint32 (v : Nat)
  | dUint64 (v : Nat)
  | dUint (v : Nat)
  | dFloat64 (bits : Nat)
  | dTime (v : Int × Nat)
  | dUnsupported
  deriving DecidableEq, Repr

/-- Failure of one destination in the scan loop. -/
inductive ScanFail where
  | overflow (dst : String)
  | unsupported
  | panic
  deriving DecidableEq, Repr

/-- Process one destination of the scan loop (the body of the `switch`
in `Batch.Scan`): extract the column value with the matching getter,
check the range for narrowing destinations, and write it. -/
def procDest (fm : Fmt) (row : List Field) (i : Nat) : Dest → Except ScanFail Dest
  | .dBool _ =>
    match colBool row i with
    | .error () => .error .panic
    | .ok (v, _) => .ok (.dBool v)
  | .dBytes _ =>
    match colBinary row i with
    | .error () => .error .panic
    | .ok (v, _) => .ok (.dBytes v)
  | .dString _ =>
    match colString fm row i with
    | .error () => .error .panic
    | .ok (v, _) => .ok (.dString v)
  | .dInt8 _ =>
    match colInt64 row i with
    | .error () => .error .panic
    | .ok (v, _) =>
      if v < -128 ∨ v > 127 then .error (.overflow "int8") else .ok (.dInt8 v)
  | .dInt16 _ =>
    match colInt64 row i with
    | .error () => .error .panic
    | .ok (v, _) =>
      if v < -32768 ∨ v > 32767 then .error (.overflow "int16") else .ok (.dInt16 v)
  | .dInt32 _ =>
    match colInt64 row i with
    | .error () => .error .panic
    | .ok (v, _) =>
      if v < -2147483648 ∨ v > 2147483647 then .error (.overflow "int32")
      else .ok (.dInt32 v)
  | .dInt64 _ =>
    match colInt64 row i with
    | .error () => .error .panic
    | .ok (v, _) => .ok (.dInt64 v)
  | .dInt _ =>
    match colInt64 row i with
    | .error () => .error .panic
    | .ok (v, _) => .ok (.dInt v)
  | .dUint8 _ =>
    match colInt64 row i with
    | .error () => .error .panic
    | .ok (v, _) =>
      if v < 0 ∨ v > 255 then .error (.overflow "uint8") else .ok (.dUint8 v.toNat)
  | .dUint16 _ =>
    match colInt64 row i with
    | .error () => .error .panic
    | .ok (v, _) =>
      if v < 0 ∨ v > 65535 then .error (.overflow "uint16") else .ok (.dUint16 v.toNat)
  | .dUint32 _ =>
    match colInt64 row i with
    | .error () => .error .panic
    | .ok (v, _) =>
      if v < 0 ∨ v > 4294967295 then .error (.overflow "uint32") else .ok (.dUint32 v.toNat)
  | .dUint64 _ =>
    match colInt64 row i with
    | .error () => .error .panic
    | .ok (v, _) =>
      if v < 0 then .error (.overflow "uint64") else .ok (.dUint64 v.toNat)
  | .dUint _ =>
    match colInt64 row i with
    | .error () => .error .panic
    | .ok (v, _) =>
      if v < 0 then .error (.overflow "uint64") else .ok (.dUint v.toNat)
  | .dFloat64 _ =>
    match colFloat64 row i with
    | .error () => .error .panic
    | .ok (v, _) => .ok (.dFloat64 v)
  | .dTime _ =>
    match colDatetime fm row i with
    | .error () => .error .panic
    | .ok (v, _) => .ok (.dTime v)
  | .dUnsupported => .error .unsupported

/-- Result of `Batch.Scan`: success, a failure before the per-column
loop, or a failure while processing destination index `i`. -/
inductive ScanResult where
  | ok
  | preStored (e : DrvErr)
  | preNoRecord
  | preCountMismatch
  | errAt (i : Nat) (f : ScanFail)
  deriving DecidableEq, Repr

/-- The per-destination loop of `Batch.Scan`: on a failure the current
and remaining destinations keep their old values and the loop returns;
destinations already processed keep their written values. -/
def scanLoop (fm : Fmt) (row : List Field) : Nat → List Dest → List Dest × ScanResult
  | _, [] => ([], .ok)
  | i, d :: ds =>
    match procDest fm row i d with
    | .error f => (d :: ds, .errAt i f)
    | .ok d2 =>
      let r := scanLoop fm row (i + 1) ds
      (d2 :: r.1, r.2)

/-- `Batch.Scan` (source getresult.go): stored error, record
availability and destination count are checked before the loop; the
loop then overwrites destinations one by one. -/
def Scan (fm : Fmt) (b : Batch) (dests : List Dest) : List Dest × ScanResult :=
  match b.err with
  | some e => (dests, .preStored e)
  | none =>
    if b.status ≠ Status.recordAvailable then (dests, .preNoRecord)
    else if dests.length ≠ (b.record.getD []).length then (dests, .preCountMismatch)
    else scanLoop fm (b.record.getD []) 0 dests

end Drv

/-! ## Theorems -/

/-- Decoding helper: `ReadUint64` on a positive fixint. -/
theorem readUint64_fixint (b0 : Nat) (h : b0 ≤ 127) (r : List Nat) :
    Msgp.ReadUint64 (b0 :: r) = .ok (b0, r) := by
  simp [Msgp.ReadUint64, h]

/-- Decoding helper: `ReadUint64` on a uint8 encoding. -/
theorem readUint64_u8 (b0 : Nat) (r : List Nat) :
    Msgp.ReadUint64 (0xcc :: b0 :: r) = .ok (b0, r) := by
  norm_num [Msgp.ReadUint64, Msgp.M_UINT8]

/-- Decoding helper: `ReadUint64` on a uint16 encoding. -/
theorem readUint64_u16 (b0 b1 : Nat) (r : List Nat) :
    Msgp.ReadUint64 (0xcd :: b0 :: b1 :: r) = .ok (b0 * 256 + b1, r) := by
  norm_num [Msgp.ReadUint64, Msgp.M_UINT8, Msgp.M_UINT16]

/-- Decoding helper: `ReadUint64` on a uint32 encoding. -/
theorem readUint64_u32 (b0 b1 b2 b3 : Nat) (r : List Nat) :
    Msgp.ReadUint64 (0xce :: b0 :: b1 :: b2 :: b3 :: r) =
      .ok (b0 * 16777216 + b1 * 65536 + b2 * 256 + b3, r) := by
  norm_num [Msgp.ReadUint64, Msgp.M_UINT8, Msgp.M_UINT16, Msgp.M_UINT32]

/-- Decoding helper: `ReadUint64` on a uint64 encoding. -/
theorem readUint64_u64 (b0 b1 b2 b3 b4 b5 b6 b7 : Nat) (r : List Nat) :
    Msgp.ReadUint64 (0xcf :: b0 :: b1 :: b2 :: b3 :: b4 :: b5 :: b6 :: b7 :: r) =
      .ok (b0 * 72057594037927936 + b1 * 281474976710656 + b2 * 1099511627776 +
        b3 * 4294967296 + b4 * 16777216 + b5 * 65536 + b6 * 256 + b7, r) := by
  norm_num [Msgp.ReadUint64, Msgp.M_UINT8, Msgp.M_UINT16, Msgp.M_UINT32, Msgp.M_UINT64]

/-- C3 counterexample: the source's `NextType` classifies a positive
fixint prefix (here `0x00`) as `Int`, not as `Uint` as the claim
states, and likewise for the stream `[0x00]`. -/
theorem nextType_posfixint_is_int_not_uint :
    Msgp.nextTypeByte 0x00 = .intType ∧ Msgp.nextTypeByte 0x00 ≠ .uintType ∧
      Msgp.NextType [0x00] = .ok .intType := by
  refine ⟨by decide, by decide, rfl⟩

set_option maxRecDepth 4000 in
/-- C3 (amended): for every byte, positive fixint prefixes (0x00..0x7f)
and the int8/16/32/64 prefixes and negative fixint prefixes classify as
`Int`, while the uint8/16/32/64 prefixes classify as `Uint`; `NextType`
peeks and consumes no bytes (it only inspects the head of the stream,
which is returned unchanged to the caller). -/
theorem nextType_classification (pfx : Nat) (h : pfx < 256) :
    (pfx ≤ 0x7f → Msgp.nextTypeByte pfx = .intType) ∧
    ((pfx = 0xcc ∨ pfx = 0xcd ∨ pfx = 0xce ∨ pfx = 0xcf) →
      Msgp.nextTypeByte pfx = .uintType) ∧
    ((0xe0 ≤ pfx ∨ pfx = 0xd0 ∨ pfx = 0xd1 ∨ pfx = 0xd2 ∨ pfx = 0xd3) →
      Msgp.nextTypeByte pfx = .intType) ∧
    (∀ rest : List Nat, Msgp.NextType (pfx :: rest) = .ok (Msgp.nextTypeByte pfx)) := by
  refine ⟨?_, ?_, ?_, fun rest => rfl⟩
  · intro hp
    simp [Msgp.nextTypeByte, hp]
  · rintro (rfl | rfl | rfl | rfl) <;> decide
  · rintro (hp | rfl | rfl | rfl | rfl)
    · simp only [Msgp.nextTypeByte, Msgp.M_NEGATIVE_FIXINT_BASE]
      rw [if_neg (by omega), if_pos (by omega)]
    all_goals decide

/-- C3 amended witness at the concrete bytes 0x05 (positive fixint),
0xcc (uint8) and 0xd0 (int8). -/
theorem nextType_classification_witness :
    Msgp.nextTypeByte 0x05 = .intType ∧ Msgp.nextTypeByte 0xcc = .uintType ∧
      Msgp.nextTypeByte 0xd0 = .intType :=
  ⟨(nextType_classification 0x05 (by norm_num)).1 (by norm_num),
   (nextType_classification 0xcc (by norm_num)).2.1 (Or.inl rfl),
   (nextType_classification 0xd0 (by norm_num)).2.2.1 (Or.inr (Or.inl rfl))⟩

/-- C4 counterexample: the signed encoder does not use the unsigned
table for positive values. The value 128 encodes as the 3-byte int16
form `[0xd1, 0x00, 0x80]`, not as a 2-byte uint8 encoding; likewise
65535 encodes in 5 bytes (int32), not 3. -/
theorem appendInt64_128_not_uint8 :
    Msgp.AppendInt64 [] 128 = [0xd1, 0x00, 0x80] ∧
      (Msgp.AppendInt64 [] 128).length ≠ 2 ∧
      (Msgp.AppendInt64 [] 65535).length = 5 := by
  refine ⟨?_, ?_, ?_⟩ <;> decide

/-- C4 (amended): for every non-negative int64 value, `AppendInt64`
chooses its representation from the signed table, skipping int8: values
0..127 encode as a 1-byte positive fixint, 128..32767 as a 3-byte int16
encoding, 32768..2^31-1 in 5 bytes (int32), and larger values in 9
bytes (int64). -/
theorem appendInt64_nonneg_bands (v : Int) (h0 : 0 ≤ v) (h1 : v < 2 ^ 63) :
    (Msgp.AppendInt64 [] v).length =
      (if v ≤ 127 then 1 else if v ≤ 32767 then 3
       else if v ≤ 2 ^ 31 - 1 then 5 else 9) ∧
    (v ≤ 127 → Msgp.AppendInt64 [] v = [v.toNat]) ∧
    (128 ≤ v → v ≤ 32767 →
      Msgp.AppendInt64 [] v = [0xd1, v.toNat / 2 ^ 8 % 256, v.toNat % 256]) := by
  have hfd : ∀ k : Nat, v.fdiv ((2 : Int) ^ k) = ((v.toNat / 2 ^ k : ℕ) : ℤ) := by
    intro k
    rw [Int.fdiv_eq_ediv _ (by positivity), ← Int.toNat_of_nonneg h0, Int.ofNat_div]
    norm_cast
  have hby : ∀ k : Nat, Msgp.ibyte v k = v.toNat / 2 ^ k % 256 := by
    intro k
    unfold Msgp.ibyte
    rw [hfd k]
    generalize v.toNat / 2 ^ k = n
    omega
  refine ⟨?_, ?_, ?_⟩
  · unfold Msgp.AppendInt64
    rw [if_pos h0]
    split_ifs <;>
      simp only [List.nil_append, List.length_cons, List.length_nil] <;> omega
  · intro ha
    unfold Msgp.AppendInt64
    rw [if_pos h0, if_pos ha]
    simp only [List.nil_append, List.cons.injEq, and_true, hby, pow_zero, Nat.div_one]
    omega
  · intro ha hbnd
    unfold Msgp.AppendInt64
    rw [if_pos h0, if_neg (by omega : ¬v ≤ 127), if_pos (by omega : v ≤ 0x7fff)]
    simp only [List.nil_append, List.cons.injEq, and_true, hby, pow_zero, Nat.div_one,
      Msgp.M_INT16]

/-- C4 amended witness at the concrete values 5, 1000 and 40000. -/
theorem appendInt64_nonneg_bands_witness :
    (Msgp.AppendInt64 [] 5).length = 1 ∧ (Msgp.AppendInt64 [] 1000).length = 3 ∧
      (Msgp.AppendInt64 [] 40000).length = 5 :=
  ⟨by simpa using (appendInt64_nonneg_bands 5 (by norm_num) (by norm_num)).1,
   by simpa using (appendInt64_nonneg_bands 1000 (by norm_num) (by norm_num)).1,
   by simpa using (appendInt64_nonneg_bands 40000 (by norm_num) (by norm_num)).1⟩

/-- C8: for every uint64 value, decoding (`ReadUint64`) the bytes
produced by encoding (`AppendUint64`) yields the value again, leaving
any trailing bytes unread, and the encoded length matches the band
widths 1/2/3/5/9 documented for ≤127 / ≤255 / ≤65535 / ≤2^32-1 /
larger. -/
theorem readUint64_appendUint64 (v : Nat) (hv : v < 2 ^ 64) (rest : List Nat) :
    Msgp.ReadUint64 (Msgp.AppendUint64 [] v ++ rest) = .ok (v, rest) ∧
    (Msgp.AppendUint64 [] v).length =
      (if v ≤ 127 then 1 else if v ≤ 255 then 2 else if v ≤ 65535 then 3
       else if v ≤ 2 ^ 32 - 1 then 5 else 9) := by
  have h32 : (2 : ℕ) ^ 32 - 1 = 4294967295 := by norm_num
  rw [h32]
  unfold Msgp.AppendUint64
  split_ifs with c1 c2 c3 c4
  · have hm : v % 256 = v := by omega
    simp [List.nil_append, List.cons_append, hm,
      readUint64_fixint v c1, List.length_cons, List.length_nil]
  · refine ⟨?_, rfl⟩
    rw [show Msgp.M_UINT8 = 0xcc from rfl]
    simp only [List.nil_append, List.cons_append, readUint64_u8]
    have : v % 256 = v := by omega
    rw [this]
  · refine ⟨?_, rfl⟩
    rw [show Msgp.M_UINT16 = 0xcd from rfl]
    simp only [List.nil_append, List.cons_append, readUint64_u16]
    congr 1
    refine Prod.ext ?_ rfl
    show v / 2 ^ 8 % 256 * 256 + v % 256 = v
    omega
  · refine ⟨?_, rfl⟩
    rw [show Msgp.M_UINT32 = 0xce from rfl]
    simp only [List.nil_append, List.cons_append, readUint64_u32]
    congr 1
    refine Prod.ext ?_ rfl
    show v / 2 ^ 24 % 256 * 16777216 + v / 2 ^ 16 % 256 * 65536 +
      v / 2 ^ 8 % 256 * 256 + v % 256 = v
    omega
  · refine ⟨?_, rfl⟩
    rw [show Msgp.M_UINT64 = 0xcf from rfl]
    simp only [List.nil_append, List.cons_append, readUint64_u64]
    congr 1
    refine Prod.ext ?_ rfl
    show v / 2 ^ 56 % 256 * 72057594037927936 + v / 2 ^ 48 % 256 * 281474976710656 +
      v / 2 ^ 40 % 256 * 1099511627776 + v / 2 ^ 32 % 256 * 4294967296 +
      v / 2 ^ 24 % 256 * 16777216 + v / 2 ^ 16 % 256 * 65536 +
      v / 2 ^ 8 % 256 * 256 + v % 256 = v
    omega

/-- C8 witness at the concrete values 127, 128, 65536 and 2^32. -/
theorem readUint64_appendUint64_witness :
    Msgp.ReadUint64 (Msgp.AppendUint64 [] 128 ++ [9]) = .ok (128, [9]) ∧
      (Msgp.AppendUint64 [] 127).length = 1 ∧
      (Msgp.AppendUint64 [] 65536).length = 5 ∧
      (Msgp.AppendUint64 [] (2 ^ 32)).length = 9 :=
  ⟨(readUint64_appendUint64 128 (by norm_num) [9]).1,
   by simpa using (readUint64_appendUint64 127 (by norm_num) []).2,
   by simpa using (readUint64_appendUint64 65536 (by norm_num) []).2,
   by simpa using (readUint64_appendUint64 (2 ^ 32) (by norm_num) []).2⟩

/-- The accepted lower bound for a continuation byte is at least 0x80. -/
theorem utf8AcceptLo_ge (c : Nat) : 0x80 ≤ Rsqlib.utf8AcceptLo c := by
  unfold Rsqlib.utf8AcceptLo
  split_ifs <;> omega

/-- A character consumes at least one byte. -/
theorem utf8CharSize_pos (c : Nat) (rest : List Nat) : 1 ≤ Rsqlib.utf8CharSize c rest := by
  rcases rest with _ | ⟨b1, _ | ⟨b2, _ | ⟨b3, t⟩⟩⟩ <;>
    simp only [Rsqlib.utf8CharSize] <;> split_ifs <;> omega

/-- A character never consumes more than the available bytes. -/
theorem utf8CharSize_le (c : Nat) (rest : List Nat) :
    Rsqlib.utf8CharSize c rest ≤ rest.length + 1 := by
  rcases rest with _ | ⟨b1, _ | ⟨b2, _ | ⟨b3, t⟩⟩⟩ <;>
    simp only [Rsqlib.utf8CharSize, List.length_cons, List.length_nil] <;>
    split_ifs <;> omega

/-- Appending an ASCII space does not change how the first character is
consumed: a space can never serve as a continuation byte, so a sequence
truncated before the append fails its continuation check after it. -/
theorem utf8CharSize_append_space (c : Nat) (rest : List Nat) :
    Rsqlib.utf8CharSize c (rest ++ [32]) = Rsqlib.utf8CharSize c rest := by
  have hlo := utf8AcceptLo_ge c
  rcases rest with _ | ⟨b1, _ | ⟨b2, _ | ⟨b3, t⟩⟩⟩ <;>
    simp only [List.nil_append, List.cons_append, Rsqlib.utf8CharSize] <;>
    split_ifs <;> omega

/-- Any fuel at least the list length computes `runeCount`. -/
theorem runeCountAux_fuel (fuel : Nat) : ∀ l : List Nat, l.length ≤ fuel →
    Rsqlib.runeCountAux fuel l = Rsqlib.runeCount l := by
  induction fuel using Nat.strong_induction_on with
  | _ fuel ih =>
    intro l hl
    cases fuel with
    | zero =>
      cases l with
      | nil => rfl
      | cons c rest => simp at hl
    | succ f =>
      cases l with
      | nil => rfl
      | cons c rest =>
        have hr : rest.length ≤ f := by simpa using hl
        have hd : (rest.drop (Rsqlib.utf8CharSize c rest - 1)).length ≤ rest.length := by
          simp
        show 1 + Rsqlib.runeCountAux f (rest.drop (Rsqlib.utf8CharSize c rest - 1)) = _
        unfold Rsqlib.runeCount
        simp only [List.length_cons]
        show _ = 1 + Rsqlib.runeCountAux rest.length
          (rest.drop (Rsqlib.utf8CharSize c rest - 1))
        rw [ih f (Nat.lt_succ_self f) _ (le_trans hd hr),
          ih rest.length (by omega) _ hd]

/-- Unfolding equation for `runeCount` on a nonempty list. -/
theorem runeCount_cons (c : Nat) (rest : List Nat) :
    Rsqlib.runeCount (c :: rest) =
      1 + Rsqlib.runeCount (rest.drop (Rsqlib.utf8CharSize c rest - 1)) := by
  show Rsqlib.runeCountAux (c :: rest).length (c :: rest) = _
  simp only [List.length_cons]
  show 1 + Rsqlib.runeCountAux rest.length (rest.drop (Rsqlib.utf8CharSize c rest - 1)) = _
  rw [runeCountAux_fuel rest.length _ (by simp)]

/-- Appending one ASCII space adds exactly one rune. -/
theorem runeCount_append_space (l : List Nat) :
    Rsqlib.runeCount (l ++ [32]) = Rsqlib.runeCount l + 1 := by
  suffices h : ∀ n, ∀ l : List Nat, l.length ≤ n →
      Rsqlib.runeCount (l ++ [32]) = Rsqlib.runeCount l + 1 from h l.length l le_rfl
  intro n
  induction n using Nat.strong_induction_on with
  | _ n ih =>
    intro l hl
    cases l with
    | nil => decide
    | cons c rest =>
      rw [List.cons_append, runeCount_cons c (rest ++ [32]), utf8CharSize_append_space,
        runeCount_cons c rest]
      have hsz := utf8CharSize_le c rest
      rw [List.drop_append_eq_append_drop,
        show Rsqlib.utf8CharSize c rest - 1 - rest.length = 0 from by omega,
        List.drop_zero]
      simp only [List.length_cons] at hl
      rw [ih rest.length (by omega) _ (by simp)]
      omega

/-- Appending `k` ASCII spaces adds exactly `k` runes. -/
theorem runeCount_append_replicate (l : List Nat) (k : Nat) :
    Rsqlib.runeCount (l ++ List.replicate k 32) = Rsqlib.runeCount l + k := by
  induction k with
  | zero => simp
  | succ k ih =>
    rw [List.replicate_succ', ← List.append_assoc, runeCount_append_space, ih]
    omega

set_option maxRecDepth 4000 in
/-- Bit facts about fixstr header bytes, and their classification. -/
theorem fixstr_byte_facts : ∀ L : Nat, L < 32 →
    (0xa0 ||| L) &&& 0xe0 = 0xa0 ∧ (0xa0 ||| L) &&& 0x1f = L ∧
      Msgp.nextTypeByte (0xa0 ||| L) = .strType := by
  decide

/-- Reading back an encoded msgpack string yields its payload and
leaves trailing bytes unread. -/
theorem readStringAsBytes_encode (v rest : List Nat) (hlen : v.length < 2 ^ 32) :
    Msgp.ReadStringAsBytes (Msgp.AppendStringFromBytes [] v ++ rest) = .ok (v, rest) := by
  have hnb : Msgp.ReadNBytes v.length (v ++ rest) = .ok (v, rest) := by
    unfold Msgp.ReadNBytes
    rw [if_pos (by simp), List.take_left v rest, List.drop_left v rest]
  unfold Msgp.AppendStringFromBytes Msgp.AppendStringHeader
  rw [List.append_assoc]
  split_ifs with c1 c2 c3
  · obtain ⟨h1, h2, _⟩ := fixstr_byte_facts v.length (by omega)
    simp only [List.nil_append, List.cons_append, Msgp.ReadStringAsBytes,
      Msgp.ReadStringHeader, Msgp.PREFIX_FIXSTR_MASK, Msgp.M_FIXSTR_BASE]
    rw [if_pos h1, h2]
    exact hnb
  · simp only [List.nil_append, List.cons_append, Msgp.ReadStringAsBytes,
      Msgp.ReadStringHeader, Msgp.PREFIX_FIXSTR_MASK, Msgp.M_FIXSTR_BASE, Msgp.M_STR8]
    rw [if_pos trivial]
    have hm : v.length % 256 = v.length := by omega
    rw [hm]
    exact hnb
  · simp only [List.nil_append, List.cons_append, Msgp.ReadStringAsBytes,
      Msgp.ReadStringHeader, Msgp.PREFIX_FIXSTR_MASK, Msgp.M_FIXSTR_BASE, Msgp.M_STR8,
      Msgp.M_STR16]
    rw [if_pos trivial]
    have hm : v.length / 2 ^ 8 % 256 * 2 ^ 8 + v.length % 256 = v.length := by omega
    rw [hm]
    exact hnb
  · simp only [List.nil_append, List.cons_append, Msgp.ReadStringAsBytes,
      Msgp.ReadStringHeader, Msgp.PREFIX_FIXSTR_MASK, Msgp.M_FIXSTR_BASE, Msgp.M_STR8,
      Msgp.M_STR16, Msgp.M_STR32]
    rw [if_pos trivial]
    have hm : v.length / 2 ^ 24 % 256 * 2 ^ 24 + v.length / 2 ^ 16 % 256 * 2 ^ 16 +
        v.length / 2 ^ 8 % 256 * 2 ^ 8 + v.length % 256 = v.length := by omega
    rw [hm]
    exact hnb

/-- The first byte of an encoded msgpack string classifies as `Str`. -/
theorem nextType_encodeStr (v rest : List Nat) :
    Msgp.NextType (Msgp.AppendStringFromBytes [] v ++ rest) = .ok .strType := by
  unfold Msgp.AppendStringFromBytes Msgp.AppendStringHeader
  rw [List.append_assoc]
  split_ifs with c1 c2 c3
  · obtain ⟨_, _, h3⟩ := fixstr_byte_facts v.length (by omega)
    simp only [List.nil_append, List.cons_append, Msgp.NextType, Msgp.M_FIXSTR_BASE]
    rw [h3]
  · simp only [List.nil_append, List.cons_append, Msgp.NextType]
    rw [show Msgp.nextTypeByte Msgp.M_STR8 = .strType from by decide]
  · simp only [List.nil_append, List.cons_append, Msgp.NextType]
    rw [show Msgp.nextTypeByte Msgp.M_STR16 = .strType from by decide]
  · simp only [List.nil_append, List.cons_append, Msgp.NextType]
    rw [show Msgp.nextTypeByte Msgp.M_STR32 = .strType from by decide]

/-- C9: when a Varchar field with `fixLen` true decodes a non-nil
string value whose rune count `r` is below its precision `p`, exactly
`p - r` ASCII space bytes are appended at the tail and the stored
value's rune count equals `p`; when the rune count already reaches `p`,
no padding is added. Padding is measured in runes, not bytes. -/
theorem varchar_fixlen_padding (p : Nat) (isN : Bool) (val0 v rest : List Nat)
    (hlen : v.length < 2 ^ 32) :
    (Rsqlib.runeCount v < p →
      Rsqlib.Varchar.read_value ⟨p, true, isN, val0⟩
          (Msgp.AppendStringFromBytes [] v ++ rest) =
        .ok (⟨p, true, false, v ++ List.replicate (p - Rsqlib.runeCount v) 32⟩, rest) ∧
      Rsqlib.runeCount (v ++ List.replicate (p - Rsqlib.runeCount v) 32) = p) ∧
    (p ≤ Rsqlib.runeCount v →
      Rsqlib.Varchar.read_value ⟨p, true, isN, val0⟩
          (Msgp.AppendStringFromBytes [] v ++ rest) =
        .ok (⟨p, true, false, v⟩, rest)) := by
  have hnt := nextType_encodeStr v rest
  have hrd := readStringAsBytes_encode v rest hlen
  constructor
  · intro hlt
    refine ⟨?_, by rw [runeCount_append_replicate]; omega⟩
    simp only [Rsqlib.Varchar.read_value, hnt, hrd]
    rw [if_pos trivial, if_pos hlt,
      if_neg (show ¬(Msgp.MType.strType = Msgp.MType.nilType) from by decide)]
  · intro hge
    simp only [Rsqlib.Varchar.read_value, hnt, hrd]
    rw [if_pos trivial, if_neg (Nat.not_lt.mpr hge),
      if_neg (show ¬(Msgp.MType.strType = Msgp.MType.nilType) from by decide)]

/-- C9 witness: precision 5 with the 2-rune value "hi" pads to
"hi   " (rune count 5); the 5-rune, 6-byte value "héllo" is not
padded. -/
theorem varchar_fixlen_padding_witness :
    (Rsqlib.Varchar.read_value ⟨5, true, false, []⟩
        (Msgp.AppendStringFromBytes [] [104, 105]) =
      .ok (⟨5, true, false, [104, 105, 32, 32, 32]⟩, []) ∧
      Rsqlib.runeCount [104, 105, 32, 32, 32] = 5) ∧
    Rsqlib.Varchar.read_value ⟨5, true, false, []⟩
        (Msgp.AppendStringFromBytes [] [104, 195, 169, 108, 108, 111]) =
      .ok (⟨5, true, false, [104, 195, 169, 108, 108, 111]⟩, []) := by
  have h1 := (varchar_fixlen_padding 5 false [] [104, 105] [] (by norm_num)).1
    (by decide)
  have h2 := (varchar_fixlen_padding 5 false [] [104, 195, 169, 108, 108, 111] []
    (by norm_num)).2 (by decide)
  refine ⟨⟨?_, ?_⟩, ?_⟩
  · simpa using h1.1
  · simpa using h1.2
  · simpa using h2

/-- C2: `Close` is not idempotent. The first call on a fresh session
succeeds, but a second call reaches `close(session.ticker_done)` with
the channel already closed, which is a runtime panic in Go — it aborts
the process instead of returning successfully. -/
theorem sessionClose_second_call_panics :
    Rsqlib.SessionClose Rsqlib.freshSession = .ok ⟨true, true, true⟩ false ∧
      Rsqlib.SessionClose ⟨true, true, true⟩ = .panicked := by
  decide

/-- C5 counterexample: a map containing an unknown key is mis-parsed.
For the two-entry map with pairs ("zz", "x") and ("text", "hello"), the
value "x" is never consumed and is read as the next key, so the loop
ends with the known pair ("text", "hello") unconsumed; the returned
record's `text` field stays empty instead of "hello". -/
theorem read_Error_info_unknown_key_misparses :
    Rsqlib.Read_Error_info [.tmapHdr 2, .tstr (Rsqlib.strB "zz"),
        .tstr (Rsqlib.strB "x"), .tstr (Rsqlib.strB "text"),
        .tstr (Rsqlib.strB "hello")] =
      .ok ({}, [.tstr (Rsqlib.strB "text"), .tstr (Rsqlib.strB "hello")]) ∧
    ({} : Rsqlib.Error_info).text ≠ Rsqlib.strB "hello" := by
  exact ⟨rfl, by decide⟩

/-- C5 (amended): the reader does not skip the value of an unknown
key — it reads only the key and leaves the value to be consumed as the
next key, so maps with unknown keys can be mis-parsed. When every key
in the map is a known field name, each pair is parsed into the correct
field of the returned record (later occurrences overwrite earlier
ones), and the rest of the stream is left unread. -/
theorem read_Error_info_known_keys (kvs : List Rsqlib.ErrKV) (rest : List Rsqlib.Tok) :
    Rsqlib.Read_Error_info
        (.tmapHdr kvs.length :: ((kvs.map Rsqlib.ErrKV.encode).flatten ++ rest)) =
      .ok (kvs.foldl Rsqlib.ErrKV.applyTo {}, rest) := by
  suffices aux : ∀ (kvs : List Rsqlib.ErrKV) (e : Rsqlib.Error_info) (rest : List Rsqlib.Tok),
      Rsqlib.Read_Error_infoAux kvs.length e ((kvs.map Rsqlib.ErrKV.encode).flatten ++ rest) =
        .ok (kvs.foldl Rsqlib.ErrKV.applyTo e, rest) by
    simp only [Rsqlib.Read_Error_info, Rsqlib.ReadMapHeaderT]
    exact aux kvs {} rest
  intro kvs
  induction kvs with
  | nil =>
    intro e rest
    rfl
  | cons kv kvs ih =>
    intro e rest
    cases kv <;>
      (simp only [Rsqlib.ErrKV.encode, Rsqlib.ErrKV.applyTo, List.map_cons,
        List.flatten_cons, List.cons_append, List.append_assoc, List.length_cons,
        List.foldl_cons, Rsqlib.Read_Error_infoAux, Rsqlib.ReadStringT,
        Rsqlib.readErrorField]
       repeat rw [if_neg (by decide)]
       rw [if_pos trivial]
       simp only [Rsqlib.ReadStringT, Rsqlib.ReadInt64T]
       exact ih _ _)

/-- The colname-map loop never inserts into an empty map: on a fresh
name the lookup misses, so the loop takes the delete branch (a no-op),
and the insert branch is unreachable. -/
theorem buildColnameMapAux_nil (l : List (Nat × String)) :
    Drv.buildColnameMapAux [] l = [] := by
  induction l with
  | nil => rfl
  | cons p rest ih =>
    obtain ⟨i, name⟩ := p
    by_cases h : name = ""
    · simp only [Drv.buildColnameMapAux, if_pos h]
      exact ih
    · simp only [Drv.buildColnameMapAux, if_neg h]
      rw [if_neg (by simp [Drv.mLookup])]
      exact ih

/-- C1: the column-name map built by `Batch.step` is always empty —
the insert and delete branches are swapped relative to the
`// ambiguous column name` comment, so a name seen for the first time
is "deleted" (a no-op) and nothing is ever inserted. In particular for
the received name list ["a","b","a",""], the lookup of "b" is absent,
contrary to the claim. -/
theorem colnameMap_always_empty :
    Drv.buildColnameMap ["a", "b", "a", ""] = [] ∧
      Drv.mLookup (Drv.buildColnameMap ["a", "b", "a", ""]) "b" = none ∧
      Drv.mLookup (Drv.buildColnameMap ["a", "b", "a", ""]) "a" = none ∧
      Drv.mLookup (Drv.buildColnameMap ["a", "b", "a", ""]) "" = none ∧
      (∀ names : List String, Drv.buildColnameMap names = []) :=
  ⟨rfl, rfl, rfl, rfl, fun names => buildColnameMapAux_nil names.enum⟩

/-- C6: when the state machine reads RecordFinished with payload `n` on
a batch with no recorded error: if `n` differs from the driver's own
running row count, the protocol-violation error is recorded and
stepping stops; otherwise the column-name list, the column-name map
and the row buffer are cleared (set to nil), the recorded count equals
the server-reported `n`, the state becomes RecordEnd, and the loop
continues on the remaining messages from that state. -/
theorem step_recordFinished (opt : Drv.StepOption) (b : Drv.Batch) (n : Int)
    (rest : List Drv.Msg) (hne : b.err = none) :
    (n ≠ b.recordCount →
      Drv.step opt b (.recordFinished n :: rest) =
        .out { b with err := some (.recordcountMismatch n b.recordCount) } false rest) ∧
    (n = b.recordCount →
      Drv.step opt b (.recordFinished n :: rest) =
        Drv.stepLoop opt
          ({ b with
              colnameList := none
              colnameMap := none
              record := none
              recordCount := n
              status := .recordEnd }) rest) := by
  unfold Drv.step
  rw [hne, if_neg (by simp)]
  constructor
  · intro h
    simp only [Drv.stepLoop]
    rw [if_pos h]
  · intro h
    simp only [Drv.stepLoop]
    rw [if_neg (by simp [h]), hne]

/-- C6 witness: a concrete batch with row count 3; the server-reported
count 4 records a mismatch error, the count 3 clears the recordset
state and continues (here: to the end of the stream, a transport
error). -/
theorem step_recordFinished_witness :
    Drv.step .finalize ⟨.recordAvailable, 1, some ["x"], some [("x", 0)], some [], 3, 0,
        none, 0, true⟩ [.recordFinished 4] =
      .out ⟨.recordAvailable, 1, some ["x"], some [("x", 0)], some [], 3, 0,
        some (.recordcountMismatch 4 3), 0, true⟩ false [] ∧
    Drv.step .finalize ⟨.recordAvailable, 1, some ["x"], some [("x", 0)], some [], 3, 0,
        none, 0, true⟩ [.recordFinished 3] =
      Drv.stepLoop .finalize ⟨.recordEnd, 1, none, none, none, 3, 0, none, 0, true⟩ [] :=
  ⟨(step_recordFinished .finalize ⟨.recordAvailable, 1, some ["x"], some [("x", 0)],
      some [], 3, 0, none, 0, true⟩ 4 [] rfl).1 (by decide),
   (step_recordFinished .finalize ⟨.recordAvailable, 1, some ["x"], some [("x", 0)],
      some [], 3, 0, none, 0, true⟩ 3 [] rfl).2 rfl⟩

/-- C7: once a batch has a recorded error, all further operations are
no-ops returning that same error: step and Next return false
immediately, consuming no messages and changing no state; Finalize
returns the stored error unchanged; Scan returns the stored error with
every destination unmodified. -/
theorem batch_error_short_circuits (opt : Drv.StepOption) (b : Drv.Batch)
    (msgs : List Drv.Msg) (fm : Drv.Fmt) (dests : List Drv.Dest) (e : Drv.DrvErr)
    (he : b.err = some e) :
    Drv.step opt b msgs = .out b false msgs ∧
    Drv.Next b msgs = .out b false msgs ∧
    Drv.Finalize b msgs = .out b (some e) msgs ∧
    Drv.Scan fm b dests = (dests, .preStored e) := by
  refine ⟨?_, ?_, ?_, ?_⟩
  · simp [Drv.step, he]
  · simp [Drv.Next, Drv.step, he]
  · simp [Drv.Finalize, he]
  · simp [Drv.Scan, he]

/-- C7 witness at a concrete batch holding a transport error. -/
theorem batch_error_short_circuits_witness :
    Drv.step .nextRecord ⟨.batchSent, 0, none, none, none, 0, 0, some .transport, 0, true⟩
        [.batchEnd 0] =
      .out ⟨.batchSent, 0, none, none, none, 0, 0, some .transport, 0, true⟩ false
        [.batchEnd 0] ∧
    Drv.Finalize ⟨.batchSent, 0, none, none, none, 0, 0, some .transport, 0, true⟩
        [.batchEnd 0] =
      .out ⟨.batchSent, 0, none, none, none, 0, 0, some .transport, 0, true⟩
        (some .transport) [.batchEnd 0] ∧
    Drv.Scan Drv.idFmt ⟨.batchSent, 0, none, none, none, 0, 0, some .transport, 0, true⟩
        [.dInt8 7] =
      ([.dInt8 7], .preStored .transport) :=
  have h := batch_error_short_circuits .nextRecord
    ⟨.batchSent, 0, none, none, none, 0, 0, some .transport, 0, true⟩ [.batchEnd 0]
    Drv.idFmt [.dInt8 7] .transport rfl
  ⟨h.1, h.2.2.1, h.2.2.2⟩

/-- The scan loop only ever reports success or a per-index failure. -/
theorem scanLoop_snd (fm : Drv.Fmt) (row : List Drv.Field) :
    ∀ (ds : List Drv.Dest) (i0 : Nat),
      (Drv.scanLoop fm row i0 ds).2 = .ok ∨
        ∃ i f, (Drv.scanLoop fm row i0 ds).2 = .errAt i f := by
  intro ds
  induction ds with
  | nil =>
    intro i0
    left
    rfl
  | cons d ds ih =>
    intro i0
    simp only [Drv.scanLoop]
    cases hp : Drv.procDest fm row i0 d with
    | error f =>
      right
      exact ⟨i0, f, rfl⟩
    | ok d2 =>
      simpa using ih (i0 + 1)

/-- Frame effect of the scan loop: a failure at index `i` leaves the
destinations from `i` on untouched, while every earlier destination has
been overwritten with its processed value. -/
theorem scanLoop_errAt_spec (fm : Drv.Fmt) (row : List Drv.Field) :
    ∀ (ds : List Drv.Dest) (i0 : Nat) (out : List Drv.Dest) (i : Nat) (f : Drv.ScanFail),
      Drv.scanLoop fm row i0 ds = (out, .errAt i f) →
      i0 ≤ i ∧
      (∀ j, i - i0 ≤ j → out[j]? = ds[j]?) ∧
      (∀ j, j < i - i0 → ∃ d d2, ds[j]? = some d ∧
        Drv.procDest fm row (i0 + j) d = .ok d2 ∧ out[j]? = some d2) := by
  intro ds
  induction ds with
  | nil =>
    intro i0 out i f h
    simp [Drv.scanLoop] at h
  | cons d ds ih =>
    intro i0 out i f h
    simp only [Drv.scanLoop] at h
    cases hp : Drv.procDest fm row i0 d with
    | error f2 =>
      rw [hp] at h
      simp only [Prod.mk.injEq] at h
      obtain ⟨ho, hr⟩ := h
      injection hr with hi hf
      subst hi
      subst ho
      refine ⟨le_refl i0, ?_, ?_⟩
      · intro j _
        rfl
      · intro j hj
        omega
    | ok d2 =>
      rw [hp] at h
      rcases hsl : Drv.scanLoop fm row (i0 + 1) ds with ⟨out2, r2⟩
      rw [hsl] at h
      simp only [Prod.mk.injEq] at h
      obtain ⟨ho, hr⟩ := h
      subst hr
      subst ho
      obtain ⟨hile, hrest, hpre⟩ := ih (i0 + 1) out2 i f hsl
      refine ⟨by omega, ?_, ?_⟩
      · intro j hj
        cases j with
        | zero => exact absurd hj (by omega)
        | succ j =>
          simp only [List.getElem?_cons_succ]
          exact hrest j (by omega)
      · intro j hj
        cases j with
        | zero =>
          exact ⟨d, d2, by simp, by simpa using hp, by simp⟩
        | succ j =>
          obtain ⟨d3, d4, h1, h2, h3⟩ := hpre j (by omega)
          refine ⟨d3, d4, by simpa using h1, ?_, by simpa using h3⟩
          rw [show i0 + (j + 1) = i0 + 1 + j from by omega]
          exact h2

/-- C10 counterexample: Scan can fail inside the per-column loop (an
overflow at destination index 0) while leaving every destination
unmodified, so "every destination unmodified" does not imply a failure
before the loop. The row holds an Int column with value 300 and the
destination is an int8 pointer. -/
theorem scan_not_atomic_counterexample :
    Drv.Scan Drv.idFmt ⟨.recordAvailable, 1, some ["a"], some [("a", 0)],
        some [Drv.Field.int false 300], 0, 0, none, 0, true⟩ [.dInt8 7] =
      ([.dInt8 7], .errAt 0 (.overflow "int8")) := by
  decide

/-- C10 (amended): Scan is not atomic over its destination list: if it
returns an overflow or unsupported-destination error at index `i`, the
destinations before `i` have already been overwritten with the current
row's column values while those from `i` on are untouched; every
destination is unmodified when Scan fails before the per-column loop
(stored batch error, no record available, destination-count mismatch)
— and also when the loop fails already at index 0. -/
theorem scan_frame_effect (fm : Drv.Fmt) (b : Drv.Batch) (dests out : List Drv.Dest)
    (i : Nat) (f : Drv.ScanFail) :
    (Drv.Scan fm b dests = (out, .errAt i f) →
      (∀ j, i ≤ j → out[j]? = dests[j]?) ∧
      (∀ j, j < i → ∃ d d2, dests[j]? = some d ∧
        Drv.procDest fm (b.record.getD []) j d = .ok d2 ∧ out[j]? = some d2)) ∧
    (∀ e, Drv.Scan fm b dests = (out, .preStored e) → out = dests) ∧
    (Drv.Scan fm b dests = (out, .preNoRecord) → out = dests) ∧
    (Drv.Scan fm b dests = (out, .preCountMismatch) → out = dests) := by
  unfold Drv.Scan
  rcases hbe : b.err with _ | e2
  case some =>
    dsimp only
    refine ⟨?_, ?_, ?_, ?_⟩
    · intro h
      simp only [Prod.mk.injEq] at h
      exact absurd h.2 (by simp)
    · intro e h
      simp only [Prod.mk.injEq] at h
      exact h.1.symm
    · intro h
      simp only [Prod.mk.injEq] at h
      exact absurd h.2 (by simp)
    · intro h
      simp only [Prod.mk.injEq] at h
      exact absurd h.2 (by simp)
  case none =>
    dsimp only
    by_cases h1 : b.status ≠ Drv.Status.recordAvailable
    · rw [if_pos h1]
      refine ⟨?_, ?_, ?_, ?_⟩
      · intro h
        simp only [Prod.mk.injEq] at h
        exact absurd h.2 (by simp)
      · intro e h
        simp only [Prod.mk.injEq] at h
        exact absurd h.2 (by simp)
      · intro h
        simp only [Prod.mk.injEq] at h
        exact h.1.symm
      · intro h
        simp only [Prod.mk.injEq] at h
        exact absurd h.2 (by simp)
    · rw [if_neg h1]
      by_cases h2 : dests.length ≠ (b.record.getD []).length
      · rw [if_pos h2]
        refine ⟨?_, ?_, ?_, ?_⟩
        · intro h
          simp only [Prod.mk.injEq] at h
          exact absurd h.2 (by simp)
        · intro e h
          simp only [Prod.mk.injEq] at h
          exact absurd h.2 (by simp)
        · intro h
          simp only [Prod.mk.injEq] at h
          exact absurd h.2 (by simp)
        · intro h
          simp only [Prod.mk.injEq] at h
          exact h.1.symm
      · rw [if_neg h2]
        have hpost : ∀ r : Drv.ScanResult,
            Drv.scanLoop fm (b.record.getD []) 0 dests = (out, r) →
            (r = .ok ∨ ∃ i2 f2, r = .errAt i2 f2) := by
          intro r hr
          rcases scanLoop_snd fm (b.record.getD []) dests 0 with hs | ⟨i2, f2, hs⟩
          · rw [hr] at hs
            exact Or.inl hs
          · rw [hr] at hs
            exact Or.inr ⟨i2, f2, hs⟩
        refine ⟨?_, ?_, ?_, ?_⟩
        · intro h
          obtain ⟨_, hrest, hpre⟩ :=
            scanLoop_errAt_spec fm (b.record.getD []) dests 0 out i f h
          refine ⟨fun j hj => hrest j (by omega), fun j hj => ?_⟩
          obtain ⟨d, d2, ha, hb2, hc⟩ := hpre j (by omega)
          exact ⟨d, d2, ha, by simpa using hb2, hc⟩
        · intro e h
          rcases hpost _ h with hs | ⟨i2, f2, hs⟩ <;> simp at hs
        · intro h
          rcases hpost _ h with hs | ⟨i2, f2, hs⟩ <;> simp at hs
        · intro h
          rcases hpost _ h with hs | ⟨i2, f2, hs⟩ <;> simp at hs

/-- C10 amended witness: a two-column row (Int 5, Int 300) scanned into
two int8 destinations fails at index 1; destination 0 has been
overwritten with 5 while destination 1 keeps its old value. -/
theorem scan_frame_effect_witness :
    (∀ j, 1 ≤ j → ([Drv.Dest.dInt8 5, Drv.Dest.dInt8 7] : List Drv.Dest)[j]? =
      ([Drv.Dest.dInt8 7, Drv.Dest.dInt8 7] : List Drv.Dest)[j]?) ∧
    (∃ d d2, ([Drv.Dest.dInt8 7, Drv.Dest.dInt8 7] : List Drv.Dest)[0]? = some d ∧
      Drv.procDest Drv.idFmt
        ((⟨.recordAvailable, 1, some ["a", "b"], some [("a", 0), ("b", 1)],
          some [Drv.Field.int false 5, Drv.Field.int false 300], 0, 0, none, 0,
          true⟩ : Drv.Batch).record.getD []) 0 d = .ok d2 ∧
      ([Drv.Dest.dInt8 5, Drv.Dest.dInt8 7] : List Drv.Dest)[0]? = some d2) :=
  have h := (scan_frame_effect Drv.idFmt
    ⟨.recordAvailable, 1, some ["a", "b"], some [("a", 0), ("b", 1)],
      some [Drv.Field.int false 5, Drv.Field.int false 300], 0, 0, none, 0, true⟩
    [.dInt8 7, .dInt8 7] [.dInt8 5, .dInt8 7] 1 (.overflow "int8")).1 (by decide)
  ⟨h.1, h.2 0 (by omega)⟩
